import Mathlib

/-!
Verification development for the ocitysmap layout/pagination/index-fitting
engine.  Python sources are shallowly embedded in Lean: floats are modelled
by exact rationals, Python lists by Lean lists, and raised exceptions by
explicit error values.  Each section names the source file and function it
embeds.
-/

namespace Ocitysmap

attribute [local semireducible] Rat.mul Rat.add Rat.sub Rat.inv Rat.ofScientific

/-! ## Python exception values

Exceptions that the embedded code can raise.  `nameError` models Python's
`NameError` (an unbound identifier was referenced), the others model the
exception classes of `indexlib/commons.py` and builtin `ValueError`. -/

inductive PyExc where
  | nameError : PyExc
  | indexEmptyError : PyExc
  | indexDoesNotFitError : PyExc
  | valueError : PyExc
deriving DecidableEq, Repr

/-! ## Duplicate-label blanking

Embeds `_blank_duplicated_names` from `layoutlib/multi_page_renderer.py`
(lines 473-479) and `layoutlib/atlas_renderer.py` (lines 596-607); the two
bodies are textually identical.  The Python code walks the sorted item list
keeping `prev_label`; when `prev_label == item.label` it sets the item's
label to the empty string, otherwise it updates `prev_label` to the item's
label.  The embedding maps the list of labels to the list of labels after
the pass. -/

def blankDupGo (prev : String) : List String → List String
  | [] => []
  | l :: ls => if prev = l then "" :: blankDupGo prev ls else l :: blankDupGo l ls

def blank_duplicated_names (labels : List String) : List String :=
  blankDupGo "" labels

/-- In the blank branch `prev_label` is not updated, but there it already
equals the current label, so the scan state is always the previous item's
original label. -/
theorem blankDupGo_cons (prev l : String) (ls : List String) :
    blankDupGo prev (l :: ls) =
      (if prev = l then "" else l) :: blankDupGo l ls := by
  by_cases h : prev = l
  · subst h
    simp [blankDupGo]
  · simp [blankDupGo, h]

theorem blankDupGo_length (prev : String) (ls : List String) :
    (blankDupGo prev ls).length = ls.length := by
  induction ls generalizing prev with
  | nil => rfl
  | cons l ls ih =>
      rw [blankDupGo_cons]
      simp [ih]

theorem blankDupGo_get (prev : String) (ls : List String) (i : ℕ) (a b : String)
    (ha : ls.get? i = some a) (hb : ls.get? (i + 1) = some b) :
    (blankDupGo prev ls).get? (i + 1) = some (if b = a then "" else b) := by
  induction ls generalizing prev i with
  | nil => simp at ha
  | cons l ls ih =>
      rw [blankDupGo_cons]
      cases i with
      | zero =>
          simp only [List.get?] at ha hb
          cases ha
          cases ls with
          | nil => simp at hb
          | cons x xs =>
              simp only [List.get?] at hb
              cases hb
              rw [blankDupGo_cons]
              by_cases h : a = b
              · subst h
                simp
              · have h' : ¬ b = a := fun hc => h hc.symm
                simp [h, h']
      | succ j =>
          simp only [List.get?] at ha hb
          simpa using ih l j ha hb

/-! ## Missing-name model for `indexlib/GeneralIndex.py`

The import statements of `indexlib/GeneralIndex.py` (lines 19-46) bind the
following module-level names.  `from .commons import IndexCategory,
IndexItem, IndexDoesNotFitError` (line 37) binds only the three imported
attributes, not `commons` itself, and line 38 imports
`ocitysmap.layoutlib.commons` under the alias `UTILS`.  The class
statements later in the file bind the class names. -/

def generalIndexModuleNames : List String :=
  [ "locale", "natsorted", "natsort_keygen", "ns", "groupby", "reduce",
    "csv", "datetime", "math", "psycopg2", "cairo", "gi",
    "Rsvg", "Pango", "PangoCairo", "draw_utils", "Renderer",
    "IndexCategory", "IndexItem", "IndexDoesNotFitError", "UTILS",
    "Point", "IndexRenderingArea", "logging", "LOG",
    "PAGE_NUMBER_MARGIN_PT",
    "GeneralIndex", "GeneralIndexCategory", "GeneralIndexItem",
    "GeneralIndexRenderingStyle", "GeneralIndexRenderer",
    "MultiPageIndexRenderer" ]

/-- Evaluating the statement `raise commons.IndexEmptyError` first resolves
the name `commons` against the module's global names; an unbound name makes
the raise statement itself raise `NameError`. -/
def raiseCommonsIndexEmptyError : PyExc :=
  if generalIndexModuleNames.contains "commons" then PyExc.indexEmptyError
  else PyExc.nameError

/-! ## Column split and index-area fitting

Embeds `GeneralIndexRenderer._compute_columns_split` (lines 714-775) and
`GeneralIndexRenderer.precompute_occupation_area` (lines 413-502) of
`indexlib/GeneralIndex.py`.  The text measurements produced by Pango for a
given rendering style (`_compute_column_occupation`) are inputs of the
embedding: each style is represented by its measured one-tall-column
width, height and per-column vertical extra. -/

inductive Freedom where
  | height : Freedom
  | width : Freedom
deriving DecidableEq, Repr

inductive Alignment where
  | top : Alignment
  | bottom : Alignment
  | left : Alignment
  | right : Alignment
deriving DecidableEq, Repr

/-- One rendering style, represented by the `_compute_column_occupation`
measurements it produces: one-tall-column width and height and the
per-column vertical safety margin. -/
structure ColumnOccupation where
  tallWidth : ℚ
  tallHeight : ℚ
  verticalExtra : ℚ
deriving DecidableEq, Repr

/-- `_compute_columns_split`: returns `some (n_cols, new flexible dimension)`
or `none` for a raised `IndexDoesNotFitError`. -/
def compute_columns_split (occ : ColumnOccupation) (zoneW zoneH : ℚ)
    (freedom : Freedom) : Option (ℤ × ℚ) :=
  if zoneW < occ.tallWidth then none
  else
    match freedom with
    | Freedom.height =>
        let nCols : ℤ := ⌊zoneW / occ.tallWidth⌋
        if nCols ≤ 0 then none
        else
          let minRequiredHeight : ℤ :=
            ⌈(occ.tallHeight + (nCols : ℚ) * occ.verticalExtra) / (nCols : ℚ)⌉
          if zoneH < (minRequiredHeight : ℚ) then none
          else some (nCols, (minRequiredHeight : ℚ))
    | Freedom.width =>
        let nCols : ℤ := ⌈occ.tallHeight / zoneH⌉
        let extra : ℚ := (nCols : ℚ) * occ.verticalExtra
        let minRequiredWidth : ℚ := (nCols : ℚ) * occ.tallWidth
        if zoneW < minRequiredWidth ∨ (nCols : ℚ) * zoneH < occ.tallHeight + extra
        then none
        else some (nCols, minRequiredWidth)

/-- The iteration over `self._rendering_styles`: returns the position of the
first style whose columns split fits, together with that split. -/
def pickRenderingStyle (styles : List ColumnOccupation) (zoneW zoneH : ℚ)
    (freedom : Freedom) : Option (ℕ × ℤ × ℚ) :=
  match styles with
  | [] => none
  | occ :: rest =>
      match compute_columns_split occ zoneW zoneH freedom with
      | some r => some (0, r)
      | none =>
          match pickRenderingStyle rest zoneW zoneH freedom with
          | some (i, r) => some (i + 1, r)
          | none => none

/-- The resolved index rendering area handed to the drawing collaborator;
`styleIdx` is the position of the chosen rendering style in the
descending-size style list. -/
structure RenderingAreaResult where
  styleIdx : ℕ
  x : ℚ
  y : ℚ
  w : ℚ
  h : ℚ
  nCols : ℤ
deriving DecidableEq, Repr

def freedomCompatible (freedom : Freedom) (alignment : Alignment) : Bool :=
  match freedom, alignment with
  | Freedom.height, Alignment.top => true
  | Freedom.height, Alignment.bottom => true
  | Freedom.width, Alignment.left => true
  | Freedom.width, Alignment.right => true
  | _, _ => false

/-- `precompute_occupation_area`.  `cats` is the category list
(`self._index_categories`); only its emptiness matters here.  The
freedom/alignment check (lines 444-448) precedes the empty-index check
(lines 450-451), which executes `raise commons.IndexEmptyError`. -/
def precompute_occupation_area (cats : List String)
    (styles : List ColumnOccupation) (x y w h : ℚ)
    (freedom : Freedom) (alignment : Alignment) :
    Except PyExc RenderingAreaResult :=
  if ¬ freedomCompatible freedom alignment then Except.error PyExc.valueError
  else if cats.isEmpty then Except.error raiseCommonsIndexEmptyError
  else
    match pickRenderingStyle styles w h freedom with
    | none => Except.error PyExc.indexDoesNotFitError
    | some (i, nCols, minDimension) =>
        let indexW : ℚ := match freedom with
          | Freedom.height => w
          | Freedom.width => minDimension
        let indexH : ℚ := match freedom with
          | Freedom.height => minDimension
          | Freedom.width => h
        let baseOffX : ℚ := if alignment = Alignment.right then w - indexW else 0
        let baseOffY : ℚ := if alignment = Alignment.bottom then h - indexH else 0
        Except.ok ⟨i, x + baseOffX, y + baseOffY, indexW, indexH, nCols⟩

/-- The first lines of `GeneralIndexRenderer.render` (lines 505-526): the
rendering area is shrunk by one point on each side, then the empty-index
check executes the same unresolvable `raise commons.IndexEmptyError`. -/
def general_index_render (cats : List String) (x y w h : ℚ) :
    Except PyExc (ℚ × ℚ × ℚ × ℚ) :=
  if cats.isEmpty then Except.error raiseCommonsIndexEmptyError
  else Except.ok (x + 1, y + 1, w - 2, h - 2)

theorem pickRenderingStyle_none_iff (styles : List ColumnOccupation)
    (zoneW zoneH : ℚ) (freedom : Freedom) :
    pickRenderingStyle styles zoneW zoneH freedom = none ↔
      ∀ occ ∈ styles, compute_columns_split occ zoneW zoneH freedom = none := by
  induction styles with
  | nil => simp [pickRenderingStyle]
  | cons occ rest ih =>
      cases hc : compute_columns_split occ zoneW zoneH freedom with
      | some r =>
          simp only [pickRenderingStyle, hc, List.mem_cons]
          constructor
          · intro h
            cases h
          · intro h
            have := h occ (Or.inl rfl)
            rw [hc] at this
            cases this
      | none =>
          cases hp : pickRenderingStyle rest zoneW zoneH freedom with
          | some ir =>
              obtain ⟨i, r⟩ := ir
              simp only [pickRenderingStyle, hc, hp]
              constructor
              · intro h
                cases h
              · intro h
                have hnone : pickRenderingStyle rest zoneW zoneH freedom = none := by
                  rw [ih]
                  intro o ho
                  exact h o (List.mem_cons_of_mem _ ho)
                rw [hp] at hnone
                cases hnone
          | none =>
            simp only [pickRenderingStyle, hc, hp]
            constructor
            · intro _
              intro o ho
              rcases List.mem_cons.mp ho with h1 | h2
              · rw [h1]; exact hc
              · exact (ih.mp hp) o h2
            · intro _
              trivial

theorem pickRenderingStyle_some (styles : List ColumnOccupation)
    (zoneW zoneH : ℚ) (freedom : Freedom) (i : ℕ) (r : ℤ × ℚ)
    (h : pickRenderingStyle styles zoneW zoneH freedom = some (i, r)) :
    (∃ hi : i < styles.length,
        compute_columns_split (styles.get ⟨i, hi⟩) zoneW zoneH freedom = some r) ∧
      ∀ j < i, ∀ hj : j < styles.length,
        compute_columns_split (styles.get ⟨j, hj⟩) zoneW zoneH freedom = none := by
  induction styles generalizing i r with
  | nil => simp [pickRenderingStyle] at h
  | cons occ rest ih =>
      cases hc : compute_columns_split occ zoneW zoneH freedom with
      | some r0 =>
          simp only [pickRenderingStyle, hc, Option.some.injEq, Prod.mk.injEq] at h
          obtain ⟨hi0, hr0⟩ := h
          subst hi0
          refine ⟨⟨Nat.succ_pos _, ?_⟩, ?_⟩
          · rw [hr0] at hc
            simpa [List.get] using hc
          · intro j hj _
            exact absurd hj (Nat.not_lt_zero j)
      | none =>
          cases hp : pickRenderingStyle rest zoneW zoneH freedom with
          | some ir =>
              obtain ⟨i2, r2⟩ := ir
              simp only [pickRenderingStyle, hc, hp, Option.some.injEq,
                Prod.mk.injEq] at h
              obtain ⟨hi2, hr2⟩ := h
              obtain ⟨⟨hlt, hsplit⟩, hbefore⟩ := ih i2 r2 hp
              subst hi2
              subst hr2
              refine ⟨⟨Nat.succ_lt_succ hlt, by simpa [List.get] using hsplit⟩, ?_⟩
              intro j hj hjlen
              cases j with
              | zero => simpa [List.get] using hc
              | succ k =>
                  have hk : k < i2 := Nat.lt_of_succ_lt_succ hj
                  have hklen : k < rest.length := Nat.lt_of_succ_lt_succ hjlen
                  simpa [List.get] using hbefore k hk hklen
          | none =>
              simp only [pickRenderingStyle, hc, hp] at h
              exact Option.noConfusion h

/-- Helper: what a successful height-freedom columns split must look like. -/
theorem compute_columns_split_height (occ : ColumnOccupation) (zoneW zoneH : ℚ)
    (n : ℤ) (m : ℚ)
    (h : compute_columns_split occ zoneW zoneH Freedom.height = some (n, m)) :
    n = ⌊zoneW / occ.tallWidth⌋ ∧ 0 < n ∧
      m = ((⌈(occ.tallHeight + (n : ℚ) * occ.verticalExtra) / (n : ℚ)⌉ : ℤ) : ℚ) ∧
      occ.tallWidth ≤ zoneW ∧ m ≤ zoneH := by
  unfold compute_columns_split at h
  by_cases h1 : zoneW < occ.tallWidth
  · simp [h1] at h
  · simp only [h1, if_false] at h
    by_cases h2 : ⌊zoneW / occ.tallWidth⌋ ≤ 0
    · simp [h2] at h
    · simp only [h2, if_false] at h
      by_cases h3 : zoneH <
          ((⌈(occ.tallHeight + (⌊zoneW / occ.tallWidth⌋ : ℚ) * occ.verticalExtra) /
              (⌊zoneW / occ.tallWidth⌋ : ℚ)⌉ : ℤ) : ℚ)
      · simp [h3] at h
      · simp only [h3, if_false, Option.some.injEq, Prod.mk.injEq] at h
        obtain ⟨hn, hm⟩ := h
        subst hn
        refine ⟨rfl, lt_of_not_le h2, hm.symm, le_of_not_lt h1, ?_⟩
        rw [← hm]
        exact le_of_not_lt h3

/-- C4: for a non-empty category list and a compatible freedom/alignment
pair, `precompute_occupation_area` raises `IndexDoesNotFitError` exactly
when no rendering style's columns split fits the target rectangle, and a
successful result uses the first fitting style of the descending-size list;
under height freedom the accepted split has `floor(zone_width /
tall_width)` columns and minimum height `ceil((tall_height + n_cols *
vertical_extra) / n_cols)`. -/
theorem claim_C4_first_fitting_style (cats : List String)
    (styles : List ColumnOccupation) (x y w h : ℚ)
    (freedom : Freedom) (alignment : Alignment)
    (hcats : cats ≠ [])
    (hcompat : freedomCompatible freedom alignment = true) :
    (precompute_occupation_area cats styles x y w h freedom alignment =
        Except.error PyExc.indexDoesNotFitError ↔
      ∀ occ ∈ styles, compute_columns_split occ w h freedom = none) ∧
    ∀ area, precompute_occupation_area cats styles x y w h freedom alignment =
        Except.ok area →
      ∃ hi : area.styleIdx < styles.length, ∃ minDim : ℚ,
        compute_columns_split (styles.get ⟨area.styleIdx, hi⟩) w h freedom =
            some (area.nCols, minDim) ∧
        (∀ j < area.styleIdx, ∀ hj : j < styles.length,
          compute_columns_split (styles.get ⟨j, hj⟩) w h freedom = none) ∧
        (freedom = Freedom.height →
          area.nCols = ⌊w / (styles.get ⟨area.styleIdx, hi⟩).tallWidth⌋ ∧
          area.w = w ∧ area.h = minDim) := by
  have hempty : cats.isEmpty = false := by
    cases cats with
    | nil => exact absurd rfl hcats
    | cons a l => rfl
  constructor
  · rw [← pickRenderingStyle_none_iff styles w h freedom]
    unfold precompute_occupation_area
    simp only [hcompat, not_true, if_false, hempty, Bool.false_eq_true]
    cases hp : pickRenderingStyle styles w h freedom with
    | none => simp
    | some ir =>
        obtain ⟨i, n, m⟩ := ir
        simp
  · intro area harea
    unfold precompute_occupation_area at harea
    simp only [hcompat, not_true, if_false, hempty, Bool.false_eq_true] at harea
    cases hp : pickRenderingStyle styles w h freedom with
    | none =>
        rw [hp] at harea
        exact Except.noConfusion harea
    | some ir =>
        obtain ⟨i, n, m⟩ := ir
        rw [hp] at harea
        simp only [Except.ok.injEq] at harea
        obtain ⟨⟨hi, hsplit⟩, hbefore⟩ := pickRenderingStyle_some styles w h freedom i (n, m) hp
        subst harea
        refine ⟨hi, m, hsplit, hbefore, ?_⟩
        intro hfd
        subst hfd
        obtain ⟨hn, _, _, _, _⟩ :=
          compute_columns_split_height (styles.get ⟨i, hi⟩) w h n m hsplit
        exact ⟨hn, rfl, rfl⟩

/-- C4 witness: two styles where only the second (smaller) fits a 12 x 30
rectangle under height freedom. -/
theorem claim_C4_witness :
    precompute_occupation_area ["a"]
        [(⟨10, 100, 0⟩ : ColumnOccupation), ⟨5, 20, 0⟩] 0 0 12 30
        Freedom.height Alignment.top =
          Except.error PyExc.indexDoesNotFitError ↔
      ∀ occ ∈ [(⟨10, 100, 0⟩ : ColumnOccupation), ⟨5, 20, 0⟩],
        compute_columns_split occ 12 30 Freedom.height = none :=
  (claim_C4_first_fitting_style ["a"] [⟨10, 100, 0⟩, ⟨5, 20, 0⟩] 0 0 12 30
    Freedom.height Alignment.top (by decide) (by decide)).1

/-- C10: the name `commons` is not bound at module level in
`indexlib/GeneralIndex.py`, so the empty-index checks in
`precompute_occupation_area` and `render` raise `NameError`, not
`IndexEmptyError`. -/
theorem claim_C10_commons_unbound :
    generalIndexModuleNames.contains "commons" = false ∧
    (∀ (styles : List ColumnOccupation) (x y w h : ℚ)
        (freedom : Freedom) (alignment : Alignment),
      freedomCompatible freedom alignment = true →
      precompute_occupation_area [] styles x y w h freedom alignment =
        Except.error PyExc.nameError) ∧
    ∀ x y w h : ℚ,
      general_index_render [] x y w h = Except.error PyExc.nameError := by
  have hres : raiseCommonsIndexEmptyError = PyExc.nameError := by
    unfold raiseCommonsIndexEmptyError
    simp only [show generalIndexModuleNames.contains "commons" = false from by decide]
    rfl
  refine ⟨by decide, ?_, ?_⟩
  · intro styles x y w h freedom alignment hcompat
    unfold precompute_occupation_area
    simp [hcompat, hres]
  · intro x y w h
    unfold general_index_render
    simp [hres]

/-- C10 witness: concrete instantiation of the empty-index call. -/
theorem claim_C10_witness :
    precompute_occupation_area [] [] 0 0 100 100 Freedom.height Alignment.top =
        Except.error PyExc.nameError ∧
      general_index_render [] 0 0 100 100 = Except.error PyExc.nameError :=
  ⟨(claim_C10_commons_unbound.2.1) [] 0 0 100 100 Freedom.height Alignment.top
      (by decide),
    (claim_C10_commons_unbound.2.2) 0 0 100 100⟩

/-- C5: after the merge pass, an item whose label equals the immediately
preceding item's original label is blanked, the head of the list keeps its
label, and list length is preserved. -/
theorem claim_C5_blank_duplicates (ls : List String) :
    (blank_duplicated_names ls).length = ls.length ∧
    (blank_duplicated_names ls).get? 0 = ls.get? 0 ∧
    ∀ i a b, ls.get? i = some a → ls.get? (i + 1) = some b →
      (blank_duplicated_names ls).get? (i + 1) =
        some (if b = a then "" else b) := by
  refine ⟨blankDupGo_length "" ls, ?_, ?_⟩
  · cases ls with
    | nil => rfl
    | cons l rest =>
        unfold blank_duplicated_names
        rw [blankDupGo_cons]
        by_cases h : ("" : String) = l
        · simp [← h]
        · simp [h]
  · intro i a b ha hb
    exact blankDupGo_get "" ls i a b ha hb

/-- C5 witness: a merged category with two identical labels keeps the first
and blanks the second. -/
theorem claim_C5_witness :
    (blank_duplicated_names ["Main Street", "Main Street"]).get? 1 = some "" ∧
      (blank_duplicated_names ["Main Street", "Main Street"]).get? 0 =
        some "Main Street" := by
  have h := claim_C5_blank_duplicates ["Main Street", "Main Street"]
  refine ⟨?_, by simpa using h.2.1⟩
  have h2 := h.2.2 0 "Main Street" "Main Street" rfl rfl
  simpa using h2

/-! ## Truncated base-10 logarithm

`maplib/grid.py` computes `exponent = math.log10(size)` and only ever uses
`int(exponent)`, Python's truncation toward zero, possibly after adding a
whole number of carries to `exponent`.  For a positive rational `q` the
truncation toward zero of `log10 q` is computed exactly: it is the floor of
the logarithm for `q ≥ 1` and minus the floor of the logarithm of `q⁻¹`
otherwise.  A fuel-based integer logarithm keeps the definition
kernel-reducible. -/

def natLog10Aux : ℕ → ℕ → ℕ
  | 0, _ => 0
  | fuel + 1, n => if n < 10 then 0 else natLog10Aux fuel (n / 10) + 1

def natLog10 (n : ℕ) : ℕ := natLog10Aux n n

theorem natLog10Aux_eq (fuel n : ℕ) (h : n ≤ fuel) :
    natLog10Aux fuel n = Nat.log 10 n := by
  induction fuel generalizing n with
  | zero =>
      have hn : n = 0 := Nat.le_zero.mp h
      subst hn
      simp [natLog10Aux]
  | succ m ih =>
      by_cases hlt : n < 10
      · simp [natLog10Aux, hlt, Nat.log_eq_zero_iff.mpr (Or.inl hlt)]
      · push_neg at hlt
        have hdiv : n / 10 < n := Nat.div_lt_self (by omega) (by norm_num)
        have hrec := ih (n / 10) (by omega)
        have hpos : 0 < Nat.log 10 n := Nat.log_pos (by norm_num) hlt
        have hdb := Nat.log_div_base 10 n
        simp only [natLog10Aux, if_neg (not_lt.mpr hlt), hrec]
        omega

theorem natLog10_eq_log (n : ℕ) : natLog10 n = Nat.log 10 n :=
  natLog10Aux_eq n n le_rfl

/-- Truncation toward zero of `log10 q`, Python's `int(math.log10(q))`. -/
def intTruncLog10 (q : ℚ) : ℤ :=
  if 1 ≤ q then (natLog10 ⌊q⌋₊ : ℤ) else -(natLog10 ⌊q⁻¹⌋₊ : ℤ)

theorem intTruncLog10_of_one_le {q : ℚ} (h : 1 ≤ q) :
    intTruncLog10 q = (Nat.log 10 ⌊q⌋₊ : ℤ) := by
  simp [intTruncLog10, h, natLog10_eq_log]

theorem intTruncLog10_of_lt_one {q : ℚ} (h : ¬ 1 ≤ q) :
    intTruncLog10 q = -(Nat.log 10 ⌊q⁻¹⌋₊ : ℤ) := by
  simp [intTruncLog10, h, natLog10_eq_log]

/-- Upper pow-10 bound exponent: `q < 10 ^ pow10UpperExp q`. -/
def pow10UpperExp (q : ℚ) : ℤ :=
  if 1 ≤ q then (natLog10 ⌊q⌋₊ : ℤ) + 1 else 0

theorem lt_pow10UpperExp (q : ℚ) : q < (10 : ℚ) ^ pow10UpperExp q := by
  unfold pow10UpperExp
  by_cases h : 1 ≤ q
  · simp only [h, if_true, natLog10_eq_log]
    have h0 : (0 : ℚ) ≤ q := le_trans zero_le_one h
    have h1 : q < (⌊q⌋₊ : ℚ) + 1 := Nat.lt_floor_add_one q
    have h2 : ⌊q⌋₊ < 10 ^ (Nat.log 10 ⌊q⌋₊ + 1) :=
      Nat.lt_pow_succ_log_self (by norm_num) _
    have h3 : (⌊q⌋₊ : ℚ) + 1 ≤ ((10 : ℕ) ^ (Nat.log 10 ⌊q⌋₊ + 1) : ℕ) := by
      exact_mod_cast Nat.succ_le_of_lt h2
    calc q < (⌊q⌋₊ : ℚ) + 1 := h1
      _ ≤ ((10 : ℕ) ^ (Nat.log 10 ⌊q⌋₊ + 1) : ℕ) := h3
      _ = (10 : ℚ) ^ ((Nat.log 10 ⌊q⌋₊ : ℤ) + 1) := by
          push_cast
          rw [← zpow_natCast]
          push_cast
          ring_nf
  · simp only [h, if_false, zpow_zero]
    exact lt_of_not_le h

/-- One multiplicative step of the truncated logarithm: multiplying by 10
adds one to the truncation, except on the single crossing of the interval
`(1/10, 1)` where the truncation stays 0. -/
theorem intTruncLog10_ten_mul (q : ℚ) (hq : 0 < q) :
    intTruncLog10 (10 * q) = intTruncLog10 q + 1 ∨
      (1 / 10 < q ∧ q < 1 ∧ intTruncLog10 q = 0 ∧ intTruncLog10 (10 * q) = 0) := by
  by_cases h1 : 1 ≤ q
  · -- q ≥ 1: both truncations are floor logs and the digit count grows by one
    left
    have h10 : (1 : ℚ) ≤ 10 * q := by linarith
    rw [intTruncLog10_of_one_le h1, intTruncLog10_of_one_le h10]
    have hm : 1 ≤ ⌊q⌋₊ := (Nat.one_le_floor_iff q).mpr h1
    set L := Nat.log 10 ⌊q⌋₊ with hL
    have hlow : 10 ^ (L + 1) ≤ ⌊10 * q⌋₊ := by
      apply Nat.le_floor
      have hp : (10 : ℚ) ^ L ≤ (⌊q⌋₊ : ℚ) := by
        exact_mod_cast Nat.pow_log_le_self 10 (by omega)
      have hfl : (⌊q⌋₊ : ℚ) ≤ q := Nat.floor_le hq.le
      push_cast
      calc ((10 : ℚ) ^ (L + 1)) = 10 * 10 ^ L := by ring
        _ ≤ 10 * q := by nlinarith
    have hhigh : ⌊10 * q⌋₊ < 10 ^ (L + 2) := by
      rw [Nat.floor_lt (by positivity)]
      have h2 : q < (⌊q⌋₊ : ℚ) + 1 := Nat.lt_floor_add_one q
      have h3 : ⌊q⌋₊ < 10 ^ (L + 1) := Nat.lt_pow_succ_log_self (by norm_num) _
      have h4 : (⌊q⌋₊ : ℚ) + 1 ≤ ((10 : ℕ) ^ (L + 1) : ℕ) := by
        exact_mod_cast Nat.succ_le_of_lt h3
      push_cast at h4 ⊢
      have hps : (10 : ℚ) ^ (L + 2) = 10 * 10 ^ (L + 1) := by ring
      nlinarith
    have : Nat.log 10 ⌊10 * q⌋₊ = L + 1 :=
      Nat.log_eq_of_pow_le_of_lt_pow hlow hhigh
    rw [this]
    push_cast
    ring
  · push_neg at h1
    by_cases h2 : 1 / 10 < q
    · -- the exceptional crossing: q in (1/10, 1)
      right
      have hinv1 : 1 < q⁻¹ := (one_lt_inv_iff₀).mpr ⟨hq, h1⟩
      have hinv10 : q⁻¹ < 10 := by
        rw [inv_lt_comm₀ hq (by norm_num)]
        linarith [h2]
      have hfl : ⌊q⁻¹⌋₊ < 10 := by
        rw [Nat.floor_lt (by positivity)]
        exact_mod_cast hinv10
      have hE : intTruncLog10 q = 0 := by
        rw [intTruncLog10_of_lt_one (not_le.mpr h1)]
        simp [Nat.log_eq_zero_iff.mpr (Or.inl hfl)]
      have h10q1 : (1 : ℚ) ≤ 10 * q := by linarith
      have h10q10 : 10 * q < 10 := by linarith
      have hfl2 : ⌊10 * q⌋₊ < 10 := by
        rw [Nat.floor_lt (by positivity)]
        exact_mod_cast h10q10
      have hE2 : intTruncLog10 (10 * q) = 0 := by
        rw [intTruncLog10_of_one_le h10q1]
        simp [Nat.log_eq_zero_iff.mpr (Or.inl hfl2)]
      exact ⟨h2, h1, hE, hE2⟩
    · push_neg at h2
      by_cases h3 : q = 1 / 10
      · -- q exactly one tenth: -1 steps to 0
        left
        subst h3
        have hlog10 : Nat.log 10 10 = 1 :=
          Nat.log_eq_of_pow_le_of_lt_pow (by norm_num) (by norm_num)
        have ha : intTruncLog10 (1 / 10 : ℚ) = -1 := by
          rw [intTruncLog10_of_lt_one (by norm_num)]
          rw [show ((1 : ℚ) / 10)⁻¹ = 10 by norm_num]
          rw [show ⌊(10 : ℚ)⌋₊ = 10 from Nat.floor_eq_iff (by norm_num) |>.mpr
            (by norm_num)]
          rw [hlog10]
          norm_num
        have hb : intTruncLog10 (10 * (1 / 10 : ℚ)) = 0 := by
          rw [show (10 : ℚ) * (1 / 10) = 1 by norm_num]
          rw [intTruncLog10_of_one_le le_rfl]
          norm_num
        rw [ha, hb]
        norm_num
      · -- q < 1/10: both sides are reciprocal floor logs, digit count drops
        left
        have hqlt : q < 1 / 10 := lt_of_le_of_ne h2 h3
        have hinv : (10 : ℚ) < q⁻¹ := by
          rw [lt_inv_comm₀ (by norm_num) hq]
          linarith
        have h10q : 10 * q < 1 := by linarith
        rw [intTruncLog10_of_lt_one (not_le.mpr h1),
          intTruncLog10_of_lt_one (not_le.mpr h10q)]
        have hinveq : (10 * q)⁻¹ = q⁻¹ / 10 := by
          rw [mul_inv, div_eq_mul_inv]
          ring
        rw [hinveq, Nat.floor_div_ofNat q⁻¹ 10, Nat.log_div_base]
        have hlog10 : Nat.log 10 10 = 1 :=
          Nat.log_eq_of_pow_le_of_lt_pow (by norm_num) (by norm_num)
        have hL1 : 1 ≤ Nat.log 10 ⌊q⁻¹⌋₊ := by
          have h10f : 10 ≤ ⌊q⁻¹⌋₊ := Nat.le_floor (by exact_mod_cast hinv.le)
          calc 1 = Nat.log 10 10 := hlog10.symm
            _ ≤ Nat.log 10 ⌊q⁻¹⌋₊ := Nat.log_mono_right h10f
        push_cast [Nat.cast_sub hL1]
        ring

/-- Adding `k` carries to the exponent loses at most one unit against the
initial truncated logarithm (the single unit is lost when the running size
crosses the interval `(1/10, 1)`). -/
theorem intTruncLog10_mul_pow_ge (q : ℚ) (hq : 0 < q) (k : ℕ) :
    intTruncLog10 q + k - 1 ≤ intTruncLog10 (q * 10 ^ k) := by
  induction k with
  | zero =>
      simp only [pow_zero, mul_one, Nat.cast_zero]
      omega
  | succ n ih =>
      have heq : q * 10 ^ (n + 1) = 10 * (q * 10 ^ n) := by ring
      rcases intTruncLog10_ten_mul (q * 10 ^ n) (by positivity) with h | hexc
      · rw [heq, h]
        push_cast
        omega
      · obtain ⟨_, hhi, _, hE2⟩ := hexc
        rw [heq, hE2]
        have hq1 : ¬ 1 ≤ q := by
          intro hc
          have hp1 : (1 : ℚ) ≤ 10 ^ n := one_le_pow₀ (by norm_num)
          nlinarith
        have hE0 : intTruncLog10 q = -(Nat.log 10 ⌊q⁻¹⌋₊ : ℤ) :=
          intTruncLog10_of_lt_one hq1
        have hfpow : 10 ^ n ≤ ⌊q⁻¹⌋₊ := by
          apply Nat.le_floor
          have hlt : (10 : ℚ) ^ n < q⁻¹ := by
            rw [lt_inv_comm₀ (by positivity) hq]
            calc q = q * 10 ^ n * (10 ^ n)⁻¹ := by
                  field_simp
              _ < 1 * (10 ^ n)⁻¹ := by
                  apply mul_lt_mul_of_pos_right hhi
                  positivity
              _ = ((10 : ℚ) ^ n)⁻¹ := one_mul _
          push_cast
          exact hlt.le
        have hlogn : n ≤ Nat.log 10 ⌊q⁻¹⌋₊ := by
          rw [← Nat.pow_le_iff_le_log (by norm_num)]
          · exact hfpow
          · have : (1 : ℕ) ≤ 10 ^ n := Nat.one_le_pow _ _ (by norm_num)
            omega
        rw [hE0]
        push_cast
        omega

/-! ## Proportional grid (`maplib/grid.py`, `Grid.__init__`, lines 41-125)

The constructor computes `size = 40 * scale / 1000`, snaps its
scientific-notation significand to 1, 2, 2.5, 5 or 10, then escalates the
significand along 1, 2, 2.5, 5, 10 (restarting at 2 with one more decade)
while the horizontal square count `width_m / size` exceeds 25. -/

def GRID_APPROX_PAPER_SIZE_MM : ℚ := 40

/-- The significand snapping of lines 65-74. -/
def nice_significand (sig : ℚ) : ℚ :=
  if sig < 3 / 2 then 1
  else if sig < 9 / 4 then 2
  else if sig < 15 / 4 then 5 / 2
  else if sig < 15 / 2 then 5
  else 10

/-- One escalation step of the `while self.horiz_count > 25` loop (lines
84-95); the second component counts the `exponent += 1` carries. -/
def escalate_significand (sig : ℚ) (k : ℕ) : ℚ × ℕ :=
  if sig = 1 then (2, k)
  else if sig = 2 then (5 / 2, k)
  else if sig = 5 / 2 then (5, k)
  else if sig = 5 then (10, k)
  else (2, k + 1)

def isNiceSig (sig : ℚ) : Prop :=
  sig = 1 ∨ sig = 2 ∨ sig = 5 / 2 ∨ sig = 5 ∨ sig = 10

/-- `size = significand * 10 ** int(exponent)` where the float `exponent`
is `log10(size0)` plus `k` carries, so `int(exponent)` is the truncation of
`log10(size0 * 10^k)`. -/
def gridSizeAt (size0 sig : ℚ) (k : ℕ) : ℚ :=
  sig * (10 : ℚ) ^ intTruncLog10 (size0 * 10 ^ k)

/-- The escalation loop, with explicit fuel (the loop in the source has no
bound; `gridFuel` below always suffices). -/
def gridEscalate (widthM size0 : ℚ) : ℕ → ℚ → ℕ → ℚ × ℕ
  | 0, sig, k => (sig, k)
  | n + 1, sig, k =>
      if 25 < widthM / gridSizeAt size0 sig k then
        let p := escalate_significand sig k
        gridEscalate widthM size0 n p.1 p.2
      else (sig, k)

def sigRank (sig : ℚ) : ℕ :=
  if sig = 1 then 4 else if sig = 2 then 3 else if sig = 5 / 2 then 2
  else if sig = 5 then 1 else 0

theorem gridEscalate_succ (widthM size0 sig : ℚ) (k m : ℕ) :
    gridEscalate widthM size0 (m + 1) sig k =
      if 25 < widthM / gridSizeAt size0 sig k then
        gridEscalate widthM size0 m (escalate_significand sig k).1
          (escalate_significand sig k).2
      else (sig, k) := rfl

def gridFuel (widthM size0 : ℚ) : ℕ :=
  5 * (pow10UpperExp (widthM / 25) - intTruncLog10 size0 + 1).toNat + 6

theorem isNiceSig_one_le {sig : ℚ} (h : isNiceSig sig) : 1 ≤ sig := by
  rcases h with h | h | h | h | h <;> rw [h] <;> norm_num

theorem isNiceSig_escalate {sig : ℚ} (k : ℕ) (h : isNiceSig sig) :
    isNiceSig (escalate_significand sig k).1 := by
  unfold escalate_significand
  rcases h with h | h | h | h | h <;> subst h <;> norm_num [isNiceSig]

theorem nice_significand_mem (sig : ℚ) : isNiceSig (nice_significand sig) := by
  unfold nice_significand isNiceSig
  split
  · tauto
  · split
    · tauto
    · split
      · tauto
      · split
        · tauto
        · tauto

theorem gridSizeAt_pos (size0 sig : ℚ) (k : ℕ) (hsig : 0 < sig) :
    0 < gridSizeAt size0 sig k := by
  unfold gridSizeAt
  have := zpow_pos (show (0 : ℚ) < 10 by norm_num) (intTruncLog10 (size0 * 10 ^ k))
  positivity

/-- Sufficient fuel drives the escalation loop to a state where the
horizontal count is at most 25, and the significand stays in the nice
set. -/
theorem gridEscalate_post (widthM size0 : ℚ) (hs0 : 0 < size0) :
    ∀ (n : ℕ) (sig : ℚ) (k : ℕ), isNiceSig sig →
      5 * ((pow10UpperExp (widthM / 25) - intTruncLog10 size0 + 1).toNat - k) +
          sigRank sig + 1 ≤ n →
      isNiceSig (gridEscalate widthM size0 n sig k).1 ∧
        widthM /
            gridSizeAt size0 (gridEscalate widthM size0 n sig k).1
              (gridEscalate widthM size0 n sig k).2 ≤ 25 := by
  intro n
  induction n with
  | zero =>
      intro sig k _ hfuel
      omega
  | succ m ih =>
      intro sig k hsig hfuel
      by_cases hguard : 25 < widthM / gridSizeAt size0 sig k
      · -- the loop body runs: bound the carries, then recurse
        have hsigpos : 0 < sig := lt_of_lt_of_le zero_lt_one (isNiceSig_one_le hsig)
        have hszpos : 0 < gridSizeAt size0 sig k := gridSizeAt_pos size0 sig k hsigpos
        have hsize_lt : gridSizeAt size0 sig k < widthM / 25 := by
          rw [lt_div_iff (by norm_num)]
          rw [lt_div_iff hszpos] at hguard
          linarith
        have hpow_le : (10 : ℚ) ^ intTruncLog10 (size0 * 10 ^ k) ≤
            gridSizeAt size0 sig k := by
          unfold gridSizeAt
          have hz : (0 : ℚ) < (10 : ℚ) ^ intTruncLog10 (size0 * 10 ^ k) :=
            zpow_pos (by norm_num) _
          nlinarith [isNiceSig_one_le hsig]
        have hpow_lt : (10 : ℚ) ^ intTruncLog10 (size0 * 10 ^ k) <
            (10 : ℚ) ^ pow10UpperExp (widthM / 25) :=
          lt_of_le_of_lt hpow_le
            (lt_of_lt_of_le hsize_lt (le_of_lt (lt_pow10UpperExp _)))
        have hexp_lt : intTruncLog10 (size0 * 10 ^ k) <
            pow10UpperExp (widthM / 25) :=
          (zpow_lt_zpow_iff_right₀ (by norm_num : (1 : ℚ) < 10)).mp hpow_lt
        have hlow := intTruncLog10_mul_pow_ge size0 hs0 k
        have hk_lt : (k : ℤ) <
            pow10UpperExp (widthM / 25) - intTruncLog10 size0 + 1 := by omega
        have hkK : k < (pow10UpperExp (widthM / 25) - intTruncLog10 size0 + 1).toNat := by
          omega
        have hstep : gridEscalate widthM size0 (m + 1) sig k =
            gridEscalate widthM size0 m (escalate_significand sig k).1
              (escalate_significand sig k).2 := by
          rw [gridEscalate_succ, if_pos hguard]
        rw [hstep]
        rcases hsig with h1 | h1 | h1 | h1 | h1 <;> subst h1
        · have he : escalate_significand 1 k = (2, k) := by
            norm_num [escalate_significand]
          rw [he]
          refine ih 2 k (by norm_num [isNiceSig]) ?_
          have ha : sigRank 1 = 4 := by norm_num [sigRank]
          have hb : sigRank 2 = 3 := by norm_num [sigRank]
          rw [ha] at hfuel
          rw [hb]
          omega
        · have he : escalate_significand 2 k = (5 / 2, k) := by
            norm_num [escalate_significand]
          rw [he]
          refine ih (5 / 2) k (by norm_num [isNiceSig]) ?_
          have ha : sigRank 2 = 3 := by norm_num [sigRank]
          have hb : sigRank (5 / 2) = 2 := by norm_num [sigRank]
          rw [ha] at hfuel
          rw [hb]
          omega
        · have he : escalate_significand (5 / 2) k = (5, k) := by
            norm_num [escalate_significand]
          rw [he]
          refine ih 5 k (by norm_num [isNiceSig]) ?_
          have ha : sigRank (5 / 2) = 2 := by norm_num [sigRank]
          have hb : sigRank 5 = 1 := by norm_num [sigRank]
          rw [ha] at hfuel
          rw [hb]
          omega
        · have he : escalate_significand 5 k = (10, k) := by
            norm_num [escalate_significand]
          rw [he]
          refine ih 10 k (by norm_num [isNiceSig]) ?_
          have ha : sigRank 5 = 1 := by norm_num [sigRank]
          have hb : sigRank 10 = 0 := by norm_num [sigRank]
          rw [ha] at hfuel
          rw [hb]
          omega
        · have he : escalate_significand 10 k = (2, k + 1) := by
            norm_num [escalate_significand]
          rw [he]
          refine ih 2 (k + 1) (by norm_num [isNiceSig]) ?_
          have ha : sigRank 10 = 0 := by norm_num [sigRank]
          have hb : sigRank 2 = 3 := by norm_num [sigRank]
          rw [ha] at hfuel
          rw [hb]
          omega
      · have hstop : gridEscalate widthM size0 (m + 1) sig k = (sig, k) := by
          rw [gridEscalate_succ, if_neg hguard]
        rw [hstop]
        exact ⟨hsig, le_of_not_lt hguard⟩

theorem sigRank_le_four (sig : ℚ) : sigRank sig ≤ 4 := by
  unfold sigRank
  split
  · omega
  · split
    · omega
    · split
      · omega
      · split
        · omega
        · omega

/-- `_gen_horizontal_square_label` (lines 149-166): bijective base-26
letters, built low digit last; the fuel argument dominates the Python
`while x != -1` loop (each step divides by 26). -/
def base26LabelAux : ℕ → ℕ → String
  | 0, _ => ""
  | fuel + 1, x =>
      if x < 26 then String.mk [Char.ofNat (65 + x % 26)]
      else base26LabelAux fuel (x / 26 - 1) ++ String.mk [Char.ofNat (65 + x % 26)]

def gen_horizontal_square_label (rtl : Bool) (numVerticalLines x : ℕ) : String :=
  let x2 := if rtl then numVerticalLines - x else x
  base26LabelAux (x2 + 1) x2

/-- `_gen_vertical_square_label` (lines 168-171). -/
def gen_vertical_square_label (x : ℕ) : String := toString (x + 1)

/-- The fields of a constructed `Grid` that the label lookup uses. -/
structure GridData where
  latTL : ℚ
  lonTL : ℚ
  gridSizeM : ℚ
  horizCount : ℚ
  vertCount : ℚ
  horizAngleSpan : ℚ
  vertAngleSpan : ℚ
  horizUnitAngle : ℚ
  vertUnitAngle : ℚ
  horizontalLabels : List String
  verticalLabels : List String
deriving DecidableEq, Repr

/-- `Grid.__init__` (lines 41-125).  `widthM`/`heightM` are the spheric
sizes delivered by the geometry collaborator, `latTL`/`lonTL` and
`latBR`/`lonBR` the bounding-box corners. -/
def gridBuild (latTL lonTL latBR lonBR heightM widthM scale : ℚ)
    (rtl : Bool) : GridData :=
  let size0 : ℚ := GRID_APPROX_PAPER_SIZE_MM * scale / 1000
  let sig0 : ℚ := nice_significand (size0 / (10 : ℚ) ^ intTruncLog10 size0)
  let fin := gridEscalate widthM size0 (gridFuel widthM size0) sig0 0
  let size : ℚ := gridSizeAt size0 fin.1 fin.2
  let horizCount : ℚ := widthM / size
  let vertCount : ℚ := heightM / size
  let hSpan : ℚ := |lonTL - lonBR|
  let vSpan : ℚ := |latTL - latBR|
  { latTL := latTL
    lonTL := lonTL
    gridSizeM := size
    horizCount := horizCount
    vertCount := vertCount
    horizAngleSpan := hSpan
    vertAngleSpan := vSpan
    horizUnitAngle := hSpan / horizCount
    vertUnitAngle := vSpan / vertCount
    horizontalLabels := (List.range ⌈horizCount⌉.toNat).map
      (gen_horizontal_square_label rtl ⌊horizCount⌋.toNat)
    verticalLabels := (List.range ⌈vertCount⌉.toNat).map
      gen_vertical_square_label }

/-- `Grid.get_location_str` (lines 173-186).  `none` models the `IndexError`
raised by an out-of-range list subscript. -/
def get_location_str (g : GridData) (lat lon : ℚ) : Option String :=
  let hdelta : ℚ := min |lon - g.lonTL| g.horizAngleSpan
  match g.horizontalLabels.get? ⌊hdelta / g.horizUnitAngle⌋.toNat with
  | none => none
  | some hlabel =>
      let vdelta : ℚ := min |lat - g.latTL| g.vertAngleSpan
      match g.verticalLabels.get? ⌊vdelta / g.vertUnitAngle⌋.toNat with
      | none => none
      | some vlabel => some (hlabel ++ vlabel)

/-- C2: the proportional grid's cell size always has a nice significand and
the escalation loop drives the horizontal square count, and hence the
horizontal label count, to at most 25. -/
theorem claim_C2_nice_size_law (latTL lonTL latBR lonBR heightM widthM scale : ℚ)
    (rtl : Bool) (hw : 0 < widthM) (hs : 0 < scale) :
    (∃ sig : ℚ, isNiceSig sig ∧ ∃ e : ℤ,
        (gridBuild latTL lonTL latBR lonBR heightM widthM scale rtl).gridSizeM =
          sig * (10 : ℚ) ^ e) ∧
      (gridBuild latTL lonTL latBR lonBR heightM widthM scale rtl).horizCount ≤ 25 ∧
      (gridBuild latTL lonTL latBR lonBR heightM widthM scale rtl).horizontalLabels.length ≤ 25 := by
  have hs0 : 0 < GRID_APPROX_PAPER_SIZE_MM * scale / 1000 := by
    unfold GRID_APPROX_PAPER_SIZE_MM
    positivity
  set size0 : ℚ := GRID_APPROX_PAPER_SIZE_MM * scale / 1000 with hsize0
  set sig0 : ℚ := nice_significand (size0 / (10 : ℚ) ^ intTruncLog10 size0) with hsig0
  have hfuel : 5 * ((pow10UpperExp (widthM / 25) - intTruncLog10 size0 + 1).toNat - 0) +
      sigRank sig0 + 1 ≤ gridFuel widthM size0 := by
    unfold gridFuel
    have := sigRank_le_four sig0
    omega
  obtain ⟨hnice, hcount⟩ := gridEscalate_post widthM size0 hs0 (gridFuel widthM size0)
    sig0 0 (nice_significand_mem _) hfuel
  set fin := gridEscalate widthM size0 (gridFuel widthM size0) sig0 0 with hfin
  have hfields :
      (gridBuild latTL lonTL latBR lonBR heightM widthM scale rtl).gridSizeM =
          gridSizeAt size0 fin.1 fin.2 ∧
        (gridBuild latTL lonTL latBR lonBR heightM widthM scale rtl).horizCount =
          widthM / gridSizeAt size0 fin.1 fin.2 ∧
        (gridBuild latTL lonTL latBR lonBR heightM widthM scale rtl).horizontalLabels.length =
          ⌈widthM / gridSizeAt size0 fin.1 fin.2⌉.toNat := by
    refine ⟨rfl, rfl, ?_⟩
    simp [gridBuild]
  refine ⟨⟨fin.1, hnice, intTruncLog10 (size0 * 10 ^ fin.2), ?_⟩, ?_, ?_⟩
  · rw [hfields.1]
    rfl
  · rw [hfields.2.1]
    exact hcount
  · rw [hfields.2.2]
    have hceil : ⌈widthM / gridSizeAt size0 fin.1 fin.2⌉ ≤ 25 := by
      rw [Int.ceil_le]
      exact_mod_cast hcount
    omega

/-- C2 witness: the 2000 m wide, 1:5000 scenario of the specification. -/
theorem claim_C2_witness :
    (0 : ℚ) < 2000 ∧ (0 : ℚ) < 5000 ∧
      ((∃ sig : ℚ, isNiceSig sig ∧ ∃ e : ℤ,
          (gridBuild 1 0 0 1 1400 2000 5000 false).gridSizeM =
            sig * (10 : ℚ) ^ e) ∧
        (gridBuild 1 0 0 1 1400 2000 5000 false).horizCount ≤ 25 ∧
        (gridBuild 1 0 0 1 1400 2000 5000 false).horizontalLabels.length ≤ 25) :=
  ⟨by norm_num, by norm_num,
    claim_C2_nice_size_law 1 0 0 1 1400 2000 5000 false (by norm_num) (by norm_num)⟩

/-- C3 counterexample: on a 2000 m wide box at 1:5000 the grid has exactly
10 horizontal squares (an integer count), so for a point one angular unit
east of the box the clamped horizontal index is 10, one past the last of
the 10 labels: the list subscript raises `IndexError` instead of clamping
to a valid label. -/
theorem claim_C3_counterexample :
    get_location_str (gridBuild 1 0 0 1 1400 2000 5000 false) 1 2 = none ∧
      (gridBuild 1 0 0 1 1400 2000 5000 false).horizontalLabels.length = 10 ∧
      (gridBuild 1 0 0 1 1400 2000 5000 false).horizAngleSpan = 1 := by
  refine ⟨by decide, by decide, by decide⟩

/-- C3 (amended): the top-left corner always maps to the first column and
row labels; a point outside the grid span clamps to a valid label whenever
the horizontal and vertical square counts are not exact integers (when a
count is an exact integer, a point at or past that axis's far edge indexes
one past the label list and raises `IndexError`). -/
theorem claim_C3_corner_and_clamping
    (latTL lonTL latBR lonBR heightM widthM scale : ℚ) (rtl : Bool)
    (hw : 0 < widthM) (hh : 0 < heightM) (hs : 0 < scale)
    (hhspan : 0 < |lonTL - lonBR|) (hvspan : 0 < |latTL - latBR|) :
    (∃ hl vl,
      (gridBuild latTL lonTL latBR lonBR heightM widthM scale rtl).horizontalLabels.get? 0 =
          some hl ∧
        (gridBuild latTL lonTL latBR lonBR heightM widthM scale rtl).verticalLabels.get? 0 =
          some vl ∧
        get_location_str (gridBuild latTL lonTL latBR lonBR heightM widthM scale rtl)
          latTL lonTL = some (hl ++ vl)) ∧
    ((⌊(gridBuild latTL lonTL latBR lonBR heightM widthM scale rtl).horizCount⌋ <
        ⌈(gridBuild latTL lonTL latBR lonBR heightM widthM scale rtl).horizCount⌉ ∧
      ⌊(gridBuild latTL lonTL latBR lonBR heightM widthM scale rtl).vertCount⌋ <
        ⌈(gridBuild latTL lonTL latBR lonBR heightM widthM scale rtl).vertCount⌉) →
      ∀ lat lon, ∃ s,
        get_location_str (gridBuild latTL lonTL latBR lonBR heightM widthM scale rtl)
          lat lon = some s) := by
  have hs0 : 0 < GRID_APPROX_PAPER_SIZE_MM * scale / 1000 := by
    unfold GRID_APPROX_PAPER_SIZE_MM
    positivity
  set size0 : ℚ := GRID_APPROX_PAPER_SIZE_MM * scale / 1000 with hsize0
  set sig0 : ℚ := nice_significand (size0 / (10 : ℚ) ^ intTruncLog10 size0) with hsig0
  have hfuel : 5 * ((pow10UpperExp (widthM / 25) - intTruncLog10 size0 + 1).toNat - 0) +
      sigRank sig0 + 1 ≤ gridFuel widthM size0 := by
    unfold gridFuel
    have := sigRank_le_four sig0
    omega
  obtain ⟨hnice, _⟩ := gridEscalate_post widthM size0 hs0 (gridFuel widthM size0)
    sig0 0 (nice_significand_mem _) hfuel
  set fin := gridEscalate widthM size0 (gridFuel widthM size0) sig0 0 with hfin
  have hszpos : 0 < gridSizeAt size0 fin.1 fin.2 :=
    gridSizeAt_pos size0 fin.1 fin.2
      (lt_of_lt_of_le zero_lt_one (isNiceSig_one_le hnice))
  set g := gridBuild latTL lonTL latBR lonBR heightM widthM scale rtl with hg
  have hghc : g.horizCount = widthM / gridSizeAt size0 fin.1 fin.2 := rfl
  have hgvc : g.vertCount = heightM / gridSizeAt size0 fin.1 fin.2 := rfl
  have hgspanh : g.horizAngleSpan = |lonTL - lonBR| := rfl
  have hgspanv : g.vertAngleSpan = |latTL - latBR| := rfl
  have hgunith : g.horizUnitAngle = |lonTL - lonBR| / g.horizCount := rfl
  have hgunitv : g.vertUnitAngle = |latTL - latBR| / g.vertCount := rfl
  have hglabh : g.horizontalLabels = (List.range ⌈g.horizCount⌉.toNat).map
      (gen_horizontal_square_label rtl ⌊g.horizCount⌋.toNat) := rfl
  have hglabv : g.verticalLabels = (List.range ⌈g.vertCount⌉.toNat).map
      gen_vertical_square_label := rfl
  have hhcpos : 0 < g.horizCount := by
    rw [hghc]
    positivity
  have hvcpos : 0 < g.vertCount := by
    rw [hgvc]
    positivity
  have hunithpos : 0 < g.horizUnitAngle := by
    rw [hgunith]
    positivity
  have hunitvpos : 0 < g.vertUnitAngle := by
    rw [hgunitv]
    positivity
  have hceilh : 0 < ⌈g.horizCount⌉.toNat := by
    have : (0 : ℤ) < ⌈g.horizCount⌉ := Int.ceil_pos.mpr hhcpos
    omega
  have hceilv : 0 < ⌈g.vertCount⌉.toNat := by
    have : (0 : ℤ) < ⌈g.vertCount⌉ := Int.ceil_pos.mpr hvcpos
    omega
  -- general lookup bound: a clamped delta maps below the label count
  have hlook : ∀ (delta span count unit : ℚ), 0 < span → 0 < count →
      unit = span / count → 0 ≤ delta → delta ≤ span →
      0 ≤ ⌊delta / unit⌋ ∧ ⌊delta / unit⌋ ≤ ⌊count⌋ := by
    intro delta span count unit hsp hcnt hu hd0 hds
    have hup : 0 < unit := by
      rw [hu]
      positivity
    constructor
    · apply Int.floor_nonneg.mpr
      positivity
    · apply Int.floor_le_floor
      rw [hu, div_div_eq_mul_div, div_le_iff hsp]
      nlinarith
  have hzspanh : (0 : ℚ) < g.horizAngleSpan := by
    rw [hgspanh]
    exact hhspan
  have hzspanv : (0 : ℚ) < g.vertAngleSpan := by
    rw [hgspanv]
    exact hvspan
  constructor
  · -- the exact top-left corner: both deltas are zero, both indices zero
    have hidxh : ⌊min |lonTL - g.lonTL| g.horizAngleSpan / g.horizUnitAngle⌋.toNat = 0 := by
      have h0 : lonTL - g.lonTL = 0 := by
        show lonTL - lonTL = 0
        ring
      rw [h0, abs_zero, min_eq_left hzspanh.le, zero_div, Int.floor_zero]
      rfl
    have hidxv : ⌊min |latTL - g.latTL| g.vertAngleSpan / g.vertUnitAngle⌋.toNat = 0 := by
      have h0 : latTL - g.latTL = 0 := by
        show latTL - latTL = 0
        ring
      rw [h0, abs_zero, min_eq_left hzspanv.le, zero_div, Int.floor_zero]
      rfl
    have hlabget : g.horizontalLabels.get? 0 =
        some (gen_horizontal_square_label rtl ⌊g.horizCount⌋.toNat 0) := by
      rw [hglabh, List.get?_map, List.get?_range hceilh]
      rfl
    have hlabvget : g.verticalLabels.get? 0 = some (gen_vertical_square_label 0) := by
      rw [hglabv, List.get?_map, List.get?_range hceilv]
      rfl
    refine ⟨gen_horizontal_square_label rtl ⌊g.horizCount⌋.toNat 0,
      gen_vertical_square_label 0, hlabget, hlabvget, ?_⟩
    simp only [get_location_str, hidxh, hidxv, hlabget, hlabvget]
  · rintro ⟨hfch, hfcv⟩ lat lon
    have hdh0 : (0 : ℚ) ≤ min |lon - g.lonTL| g.horizAngleSpan :=
      le_min (abs_nonneg _) hzspanh.le
    have hdhs : min |lon - g.lonTL| g.horizAngleSpan ≤ g.horizAngleSpan :=
      min_le_right _ _
    have hdv0 : (0 : ℚ) ≤ min |lat - g.latTL| g.vertAngleSpan :=
      le_min (abs_nonneg _) hzspanv.le
    have hdvs : min |lat - g.latTL| g.vertAngleSpan ≤ g.vertAngleSpan :=
      min_le_right _ _
    obtain ⟨hh0, hhle⟩ := hlook (min |lon - g.lonTL| g.horizAngleSpan)
      g.horizAngleSpan g.horizCount g.horizUnitAngle hzspanh hhcpos rfl hdh0 hdhs
    obtain ⟨hv0, hvle⟩ := hlook (min |lat - g.latTL| g.vertAngleSpan)
      g.vertAngleSpan g.vertCount g.vertUnitAngle hzspanv hvcpos rfl hdv0 hdvs
    have hidxh : ⌊min |lon - g.lonTL| g.horizAngleSpan / g.horizUnitAngle⌋.toNat <
        ⌈g.horizCount⌉.toNat := by
      omega
    have hidxv : ⌊min |lat - g.latTL| g.vertAngleSpan / g.vertUnitAngle⌋.toNat <
        ⌈g.vertCount⌉.toNat := by
      omega
    have hlabget : g.horizontalLabels.get?
        ⌊min |lon - g.lonTL| g.horizAngleSpan / g.horizUnitAngle⌋.toNat =
          some (gen_horizontal_square_label rtl ⌊g.horizCount⌋.toNat
            ⌊min |lon - g.lonTL| g.horizAngleSpan / g.horizUnitAngle⌋.toNat) := by
      rw [hglabh, List.get?_map, List.get?_range hidxh]
      rfl
    have hlabvget : g.verticalLabels.get?
        ⌊min |lat - g.latTL| g.vertAngleSpan / g.vertUnitAngle⌋.toNat =
          some (gen_vertical_square_label
            ⌊min |lat - g.latTL| g.vertAngleSpan / g.vertUnitAngle⌋.toNat) := by
      rw [hglabv, List.get?_map, List.get?_range hidxv]
      rfl
    refine ⟨gen_horizontal_square_label rtl ⌊g.horizCount⌋.toNat
        ⌊min |lon - g.lonTL| g.horizAngleSpan / g.horizUnitAngle⌋.toNat ++
      gen_vertical_square_label
        ⌊min |lat - g.latTL| g.vertAngleSpan / g.vertUnitAngle⌋.toNat, ?_⟩
    simp only [get_location_str, hlabget, hlabvget]

/-- C3 witness: a 2100 x 1410 m box at 1:5000 has fractional square counts
10.5 and 7.05, so a far outside point still clamps to a valid label. -/
theorem claim_C3_witness :
    ∃ s, get_location_str (gridBuild 1 0 0 1 1410 2100 5000 false) (-3) 99 =
      some s :=
  (claim_C3_corner_and_clamping 1 0 0 1 1410 2100 5000 false (by norm_num)
      (by norm_num) (by norm_num) (by norm_num) (by norm_num)).2
    ⟨by decide, by decide⟩ (-3) 99

/-! ## Fixed grid (`maplib/fixed_grid.py`, `FixedGrid.get_location_str`,
lines 131-150)

Each atlas page gets its own `FixedGrid` over that page's inner bounding
box (`atlas_renderer.py` line 466, always with `rows=4, cols=3`), and
`get_location_str` returns `1 + hno + vno * cols` for the cell of the given
point within that single page. -/

def fixed_grid_location_number (latTL lonTL latBR lonBR : ℚ) (rows cols : ℕ)
    (rtl : Bool) (lat lon : ℚ) : ℤ :=
  let hSpan : ℚ := |lonTL - lonBR|
  let vSpan : ℚ := |latTL - latBR|
  let hUnit : ℚ := hSpan / (cols : ℚ)
  let vUnit : ℚ := vSpan / (rows : ℚ)
  let hdelta : ℚ := if rtl then min |lonBR - lon| hSpan else min |lon - lonTL| hSpan
  let vdelta : ℚ := min |lat - latTL| vSpan
  1 + ⌊hdelta / hUnit⌋ + ⌊vdelta / vUnit⌋ * (cols : ℤ)

def fixed_grid_location_str (latTL lonTL latBR lonBR : ℚ) (rows cols : ℕ)
    (rtl : Bool) (lat lon : ℚ) : String :=
  toString (fixed_grid_location_number latTL lonTL latBR lonBR rows cols rtl lat lon)

/-- C7 counterexample: two adjacent atlas pages (different bounding boxes)
both label their top-left cell "1": fixed-grid references restart on every
page, they are not globally continued, so references are only unique within
one page. -/
theorem claim_C7_counterexample :
    fixed_grid_location_str 2 0 1 1 4 3 false 2 0 =
        fixed_grid_location_str 2 1 1 2 4 3 false 2 1 ∧
      fixed_grid_location_str 2 0 1 1 4 3 false 2 0 = "1" ∧
      ((2 : ℚ), (0 : ℚ), (1 : ℚ), (1 : ℚ)) ≠ ((2 : ℚ), (1 : ℚ), (1 : ℚ), (2 : ℚ)) := by
  refine ⟨by decide, by decide, by decide⟩

/-- C7 (amended): within one atlas page, fixed-grid labels are the plain
sequential integers `1 + column + row * cols`, counted left to right and
top to bottom, ranging over `1 .. rows * cols`; the numbering restarts on
every page (see the counterexample), and atlas-wide uniqueness comes from
the page-number prefix added by `update_location_str`, not from the grid
numbers. -/
theorem claim_C7_page_local_numbering (latTL lonTL latBR lonBR : ℚ)
    (rows cols : ℕ) (rtl : Bool) (lat lon : ℚ)
    (hrows : 1 ≤ rows) (hcols : 1 ≤ cols)
    (hhspan : 0 < |lonTL - lonBR|) (hvspan : 0 < |latTL - latBR|)
    (hinh : (if rtl then |lonBR - lon| else |lon - lonTL|) < |lonTL - lonBR|)
    (hinv : |lat - latTL| < |latTL - latBR|) :
    ∃ hno vno : ℤ, 0 ≤ hno ∧ hno < cols ∧ 0 ≤ vno ∧ vno < rows ∧
      fixed_grid_location_number latTL lonTL latBR lonBR rows cols rtl lat lon =
        1 + hno + vno * cols ∧
      fixed_grid_location_str latTL lonTL latBR lonBR rows cols rtl lat lon =
        toString (1 + hno + vno * (cols : ℤ)) ∧
      1 ≤ 1 + hno + vno * (cols : ℤ) ∧
      1 + hno + vno * (cols : ℤ) ≤ (rows : ℤ) * cols := by
  have hcpos : (0 : ℚ) < (cols : ℚ) := by
    exact_mod_cast Nat.lt_of_lt_of_le Nat.zero_lt_one hcols
  have hrpos : (0 : ℚ) < (rows : ℚ) := by
    exact_mod_cast Nat.lt_of_lt_of_le Nat.zero_lt_one hrows
  have hnum : fixed_grid_location_number latTL lonTL latBR lonBR rows cols rtl lat lon =
      1 + ⌊min (if rtl then |lonBR - lon| else |lon - lonTL|) |lonTL - lonBR| /
            (|lonTL - lonBR| / (cols : ℚ))⌋ +
        ⌊min |lat - latTL| |latTL - latBR| / (|latTL - latBR| / (rows : ℚ))⌋ * (cols : ℤ) := by
    cases rtl <;> rfl
  have hr0 : 0 ≤ (if rtl then |lonBR - lon| else |lon - lonTL|) := by
    cases rtl <;> simp [abs_nonneg]
  have hd0 : 0 ≤ min (if rtl then |lonBR - lon| else |lon - lonTL|) |lonTL - lonBR| :=
    le_min hr0 hhspan.le
  have hdlt : min (if rtl then |lonBR - lon| else |lon - lonTL|) |lonTL - lonBR| <
      |lonTL - lonBR| :=
    lt_of_le_of_lt (min_le_left _ _) hinh
  have hno_lt : ⌊min (if rtl then |lonBR - lon| else |lon - lonTL|) |lonTL - lonBR| /
      (|lonTL - lonBR| / (cols : ℚ))⌋ < (cols : ℤ) := by
    rw [Int.floor_lt]
    push_cast
    rw [div_div_eq_mul_div, div_lt_iff hhspan]
    nlinarith
  have hno_0 : 0 ≤ ⌊min (if rtl then |lonBR - lon| else |lon - lonTL|) |lonTL - lonBR| /
      (|lonTL - lonBR| / (cols : ℚ))⌋ := by
    apply Int.floor_nonneg.mpr
    apply div_nonneg hd0
    positivity
  have hvdelta0 : (0 : ℚ) ≤ min |lat - latTL| |latTL - latBR| :=
    le_min (abs_nonneg _) hvspan.le
  have hvdeltalt : min |lat - latTL| |latTL - latBR| < |latTL - latBR| :=
    lt_of_le_of_lt (min_le_left _ _) hinv
  have hvno_lt : ⌊min |lat - latTL| |latTL - latBR| / (|latTL - latBR| / (rows : ℚ))⌋ <
      (rows : ℤ) := by
    rw [Int.floor_lt]
    push_cast
    rw [div_div_eq_mul_div, div_lt_iff hvspan]
    nlinarith
  have hvno_0 : 0 ≤ ⌊min |lat - latTL| |latTL - latBR| / (|latTL - latBR| / (rows : ℚ))⌋ := by
    apply Int.floor_nonneg.mpr
    apply div_nonneg hvdelta0
    positivity
  refine ⟨⌊min (if rtl then |lonBR - lon| else |lon - lonTL|) |lonTL - lonBR| /
      (|lonTL - lonBR| / (cols : ℚ))⌋,
    ⌊min |lat - latTL| |latTL - latBR| / (|latTL - latBR| / (rows : ℚ))⌋,
    hno_0, hno_lt, hvno_0, hvno_lt, hnum, ?_, ?_, ?_⟩
  · unfold fixed_grid_location_str
    rw [hnum]
  · have hm0 : 0 ≤ ⌊min |lat - latTL| |latTL - latBR| /
        (|latTL - latBR| / (rows : ℚ))⌋ * (cols : ℤ) :=
      mul_nonneg hvno_0 (by positivity)
    omega
  · have hmul : ⌊min |lat - latTL| |latTL - latBR| /
        (|latTL - latBR| / (rows : ℚ))⌋ * (cols : ℤ) ≤ ((rows : ℤ) - 1) * cols :=
      mul_le_mul_of_nonneg_right (by omega) (by positivity)
    have hring : ((rows : ℤ) - 1) * cols = (rows : ℤ) * cols - cols := by ring
    linarith

/-- C7 witness for the amended claim: an interior point of a 4 x 3 page. -/
theorem claim_C7_witness :
    ∃ hno vno : ℤ, 0 ≤ hno ∧ hno < 3 ∧ 0 ≤ vno ∧ vno < 4 ∧
      fixed_grid_location_number 2 0 1 1 4 3 false (3 / 2) (1 / 2) =
        1 + hno + vno * 3 ∧
      fixed_grid_location_str 2 0 1 1 4 3 false (3 / 2) (1 / 2) =
        toString (1 + hno + vno * (3 : ℤ)) ∧
      1 ≤ 1 + hno + vno * (3 : ℤ) ∧
      1 + hno + vno * (3 : ℤ) ≤ (4 : ℤ) * 3 :=
  claim_C7_page_local_numbering 2 0 1 1 4 3 false (3 / 2) (1 / 2)
    (by norm_num) (by norm_num) (by norm_num) (by norm_num)
    (by norm_num [abs_lt]) (by norm_num [abs_lt])

/-! ## Tile scale selection

Embeds the `while True` scale loops of
`layoutlib/multi_page_renderer.py` (lines 108-154, growth factor 1.41) and
`layoutlib/atlas_renderer.py` (lines 165-213, growth factor 1.189).  Both
loops compute per-dimension page counts `ceil((total - usable) / (usable -
overlap) + 1)` (clamped to 1 when the area fits one page), break when the
page total is strictly below the configured maximum, and otherwise grow the
scale denominator unless the grown scale would exceed
`Renderer.DEFAULT_SCALE`. -/

/-- Modelled from the spec: `layoutlib/commons.py` is not present under
`src/` (only `indexlib/commons.py` is); the spec gives the usable page area
in points and the geographic sizes in millimeters, so the millimeter to
point conversion is the standard typographic one, 25.4 mm = 72 pt. -/
def convert_mm_to_pt (mm : ℚ) : ℚ := mm * 720 / 254

/-- Per-dimension page count (lines 124-141 of the multi-page renderer,
182-200 of the atlas renderer). -/
def nb_pages_dimension (total usable overlap : ℚ) : ℕ :=
  if total < usable then 1
  else ⌈(total - usable) / (usable - overlap) + 1⌉.toNat

/-- Total paper length needed for a geographic length at a scale
denominator (lines 118-119 / 175-176). -/
def total_paper_pt (sizeMerc scale : ℚ) : ℚ :=
  convert_mm_to_pt (sizeMerc * 1000 / scale)

def multi_page_count (width height uw uh ov : ℚ) (s : ℚ) : ℕ :=
  nb_pages_dimension (total_paper_pt width s) uw ov *
    nb_pages_dimension (total_paper_pt height s) uh ov

def atlas_page_count (width height uw uh ovW ovH : ℚ) (s : ℚ) : ℕ :=
  nb_pages_dimension (total_paper_pt width s) uw ovW *
    nb_pages_dimension (total_paper_pt height s) uh ovH

/-- The scale-growth loop.  A page budget of 0 models a falsy
`MAX_..._MAPPAGES`, for which the Python `if` never breaks on the page
count.  The fuel is only a bound on the iteration count; `scaleFuel` below
always suffices. -/
def scaleLoop (pages : ℚ → ℕ) (maxPages : ℕ) (ceiling f : ℚ) : ℕ → ℚ → ℚ
  | 0, s => s
  | n + 1, s =>
      if maxPages ≠ 0 ∧ pages s < maxPages then s
      else if ceiling < s * f then s
      else scaleLoop pages maxPages ceiling f n (s * f)

def scaleFuel (ceiling s0 f : ℚ) : ℕ := ⌈ceiling / (s0 * (f - 1))⌉.toNat + 1

def tile_scale_select (pages : ℚ → ℕ) (maxPages : ℕ) (ceiling f s0 : ℚ) : ℚ :=
  scaleLoop pages maxPages ceiling f (scaleFuel ceiling s0 f) s0

def DEFAULT_SCALE : ℚ := 7000000

def MAX_ATLAS_MAPPAGES : ℕ := 40

def DEFAULT_ATLAS_SCALE : ℚ := 700000

/-- `scale_denom = self.DEFAULT_ATLAS_SCALE` then `scale_denom *= 72/90`
(atlas renderer lines 139-152). -/
def ATLAS_START_SCALE : ℚ := DEFAULT_ATLAS_SCALE * 72 / 90

def atlasGrowthFactor : ℚ := 1189 / 1000

def multiGrowthFactor : ℚ := 141 / 100

def atlas_scale_select (width height uw uh ovW ovH : ℚ) : ℚ :=
  tile_scale_select (atlas_page_count width height uw uh ovW ovH)
    MAX_ATLAS_MAPPAGES DEFAULT_SCALE atlasGrowthFactor ATLAS_START_SCALE

def multi_page_scale_select (width height uw uh ov : ℚ) (maxPages : ℕ)
    (s0 : ℚ) : ℚ :=
  tile_scale_select (multi_page_count width height uw uh ov) maxPages
    DEFAULT_SCALE multiGrowthFactor s0

theorem scaleLoop_succ (pages : ℚ → ℕ) (maxPages : ℕ) (ceiling f : ℚ)
    (n : ℕ) (s : ℚ) :
    scaleLoop pages maxPages ceiling f (n + 1) s =
      if maxPages ≠ 0 ∧ pages s < maxPages then s
      else if ceiling < s * f then s
      else scaleLoop pages maxPages ceiling f n (s * f) := rfl

/-- With enough fuel the loop ends either under budget or at the ceiling. -/
theorem scaleLoop_post (pages : ℚ → ℕ) (maxPages : ℕ) (ceiling f : ℚ) :
    ∀ (n : ℕ) (s : ℚ), ceiling < s * f ^ (n + 1) →
      (maxPages ≠ 0 ∧ pages (scaleLoop pages maxPages ceiling f n s) < maxPages) ∨
        ceiling < scaleLoop pages maxPages ceiling f n s * f := by
  intro n
  induction n with
  | zero =>
      intro s hc
      right
      simpa using hc
  | succ m ih =>
      intro s hc
      rw [scaleLoop_succ]
      by_cases h1 : maxPages ≠ 0 ∧ pages s < maxPages
      · rw [if_pos h1]
        exact Or.inl h1
      · rw [if_neg h1]
        by_cases h2 : ceiling < s * f
        · rw [if_pos h2]
          exact Or.inr h2
        · rw [if_neg h2]
          apply ih
          calc ceiling < s * f ^ (m + 2) := hc
            _ = s * f * f ^ (m + 1) := by ring

/-- The loop retraces the code exactly: the returned scale is the starting
one multiplied by the growth factor once per iteration, and every
performed growth step happened with the page count not under budget and
the grown scale not past the ceiling. -/
theorem scaleLoop_growth_trace (pages : ℚ → ℕ) (maxPages : ℕ) (ceiling f : ℚ) :
    ∀ (n : ℕ) (s : ℚ), ∃ k ≤ n,
      scaleLoop pages maxPages ceiling f n s = s * f ^ k ∧
        ∀ j < k, ¬ (maxPages ≠ 0 ∧ pages (s * f ^ j) < maxPages) ∧
          s * f ^ (j + 1) ≤ ceiling := by
  intro n
  induction n with
  | zero =>
      intro s
      refine ⟨0, le_rfl, by simp [scaleLoop], ?_⟩
      intro j hj
      exact absurd hj (Nat.not_lt_zero j)
  | succ m ih =>
      intro s
      rw [scaleLoop_succ]
      by_cases h1 : maxPages ≠ 0 ∧ pages s < maxPages
      · rw [if_pos h1]
        refine ⟨0, Nat.zero_le _, by simp, ?_⟩
        intro j hj
        exact absurd hj (Nat.not_lt_zero j)
      · rw [if_neg h1]
        by_cases h2 : ceiling < s * f
        · rw [if_pos h2]
          refine ⟨0, Nat.zero_le _, by simp, ?_⟩
          intro j hj
          exact absurd hj (Nat.not_lt_zero j)
        · rw [if_neg h2]
          obtain ⟨k, hkle, heq, hcond⟩ := ih (s * f)
          refine ⟨k + 1, Nat.succ_le_succ hkle, ?_, ?_⟩
          · rw [heq]
            ring
          · intro j hj
            cases j with
            | zero =>
                constructor
                · simpa using h1
                · rw [pow_one]
                  exact le_of_not_lt h2
            | succ i =>
                obtain ⟨hc1, hc2⟩ := hcond i (Nat.lt_of_succ_lt_succ hj)
                constructor
                · intro hcontra
                  apply hc1
                  refine ⟨hcontra.1, ?_⟩
                  have hrw : s * f * f ^ i = s * f ^ (i + 1) := by ring
                  rw [hrw]
                  exact hcontra.2
                · have hrw : s * f * f ^ (i + 1) = s * f ^ (i + 1 + 1) := by ring
                  rw [hrw] at hc2
                  exact hc2

/-- The chosen fuel puts the scale past the ceiling if every iteration
grows. -/
theorem scaleFuel_spec (ceiling s0 f : ℚ) (hs : 0 < s0) (hf : 1 < f) :
    ceiling < s0 * f ^ (scaleFuel ceiling s0 f + 1) := by
  have hf1 : (0 : ℚ) < f - 1 := by linarith
  have hfpos : (0 : ℚ) < f := by linarith
  have hpow : 1 + ((scaleFuel ceiling s0 f + 1 : ℕ) : ℚ) * (f - 1) ≤
      f ^ (scaleFuel ceiling s0 f + 1) := by
    have := one_add_mul_le_pow (show (-2 : ℚ) ≤ f - 1 by linarith)
      (scaleFuel ceiling s0 f + 1)
    calc 1 + ((scaleFuel ceiling s0 f + 1 : ℕ) : ℚ) * (f - 1) =
          1 + ((scaleFuel ceiling s0 f + 1 : ℕ) : ℚ) * (f - 1) := rfl
      _ ≤ (1 + (f - 1)) ^ (scaleFuel ceiling s0 f + 1) := this
      _ = f ^ (scaleFuel ceiling s0 f + 1) := by
          congr 1
          ring
  rcases le_or_lt ceiling 0 with hc | hc
  · have : (0 : ℚ) < s0 * f ^ (scaleFuel ceiling s0 f + 1) := by positivity
    linarith
  · set x : ℚ := ceiling / (s0 * (f - 1)) with hx
    have hxpos : 0 < x := by
      rw [hx]
      positivity
    have hceil : x ≤ (⌈x⌉ : ℚ) := Int.le_ceil x
    have htn : (⌈x⌉ : ℚ) ≤ (⌈x⌉.toNat : ℚ) := by
      have h0 : (0 : ℤ) ≤ ⌈x⌉ := le_of_lt (Int.ceil_pos.mpr hxpos)
      exact_mod_cast Int.self_le_toNat ⌈x⌉
    have hn : x < ((scaleFuel ceiling s0 f + 1 : ℕ) : ℚ) := by
      unfold scaleFuel
      push_cast
      linarith
    have hxc : ceiling = x * (s0 * (f - 1)) := by
      rw [hx]
      field_simp
    calc ceiling = x * (s0 * (f - 1)) := hxc
      _ < ((scaleFuel ceiling s0 f + 1 : ℕ) : ℚ) * (s0 * (f - 1)) := by
          apply mul_lt_mul_of_pos_right hn
          positivity
      _ ≤ s0 * (((scaleFuel ceiling s0 f + 1 : ℕ) : ℚ) * (f - 1)) :=
          le_of_eq (by ring)
      _ < s0 * (1 + ((scaleFuel ceiling s0 f + 1 : ℕ) : ℚ) * (f - 1)) := by
          apply mul_lt_mul_of_pos_left _ hs
          linarith
      _ ≤ s0 * f ^ (scaleFuel ceiling s0 f + 1) :=
          mul_le_mul_of_nonneg_left hpow hs.le

theorem scaleLoop_ge (pages : ℚ → ℕ) (maxPages : ℕ) (ceiling f : ℚ)
    (hf : 1 ≤ f) :
    ∀ (n : ℕ) (s : ℚ), 0 < s → s ≤ scaleLoop pages maxPages ceiling f n s := by
  intro n
  induction n with
  | zero =>
      intro s _
      simp [scaleLoop]
  | succ m ih =>
      intro s hs
      rw [scaleLoop_succ]
      by_cases h1 : maxPages ≠ 0 ∧ pages s < maxPages
      · rw [if_pos h1]
      · rw [if_neg h1]
        by_cases h2 : ceiling < s * f
        · rw [if_pos h2]
        · rw [if_neg h2]
          calc s ≤ s * f := le_mul_of_one_le_right hs.le hf
            _ ≤ scaleLoop pages maxPages ceiling f m (s * f) :=
                ih (s * f) (by positivity)

/-- A larger page budget only weakens the stopping test, so the loop stops
no later and the returned scale denominator is no larger. -/
theorem scaleLoop_budget_mono (pages : ℚ → ℕ) (ceiling f : ℚ) (hf : 1 ≤ f)
    (P1 P2 : ℕ) (hP : P1 ≤ P2) :
    ∀ (n : ℕ) (s : ℚ), 0 < s →
      scaleLoop pages P2 ceiling f n s ≤ scaleLoop pages P1 ceiling f n s := by
  intro n
  induction n with
  | zero =>
      intro s _
      exact le_rfl
  | succ m ih =>
      intro s hs
      rw [scaleLoop_succ, scaleLoop_succ]
      by_cases h2 : P2 ≠ 0 ∧ pages s < P2
      · rw [if_pos h2]
        by_cases h1 : P1 ≠ 0 ∧ pages s < P1
        · rw [if_pos h1]
        · rw [if_neg h1]
          by_cases hc : ceiling < s * f
          · rw [if_pos hc]
          · rw [if_neg hc]
            calc s ≤ s * f := le_mul_of_one_le_right hs.le hf
              _ ≤ scaleLoop pages P1 ceiling f m (s * f) :=
                  scaleLoop_ge pages P1 ceiling f hf m (s * f) (by positivity)
      · have h1 : ¬ (P1 ≠ 0 ∧ pages s < P1) := by
          intro hc
          obtain ⟨hca, hcb⟩ := hc
          exact h2 ⟨by omega, by omega⟩
        rw [if_neg h1, if_neg h2]
        by_cases hc : ceiling < s * f
        · rw [if_pos hc, if_pos hc]
        · rw [if_neg hc, if_neg hc]
          exact ih (s * f) (by positivity)

/-- C1 counterexample: an area needing exactly 40 pages at the atlas start
scale.  40 does not exceed the configured maximum `MAX_ATLAS_MAPPAGES =
40`, and the grown scale stays below the ceiling, yet the loop still grows
the scale denominator: the loop re-tries whenever the page count reaches
the maximum, not only when it exceeds it. -/
theorem claim_C1_counterexample :
    atlas_page_count 1778 (3556 / 3) 2 2 1 1 ATLAS_START_SCALE = 40 ∧
      MAX_ATLAS_MAPPAGES = 40 ∧
      ATLAS_START_SCALE * atlasGrowthFactor ≤ DEFAULT_SCALE ∧
      atlas_scale_select 1778 (3556 / 3) 2 2 1 1 ≠ ATLAS_START_SCALE := by
  refine ⟨by decide, rfl, by decide, by decide⟩

/-- C1 (amended): both tile-scale loops multiply the scale denominator by
their fixed growth factor (1.189 atlas, 1.41 multi-page) and recompute the
page grid whenever rows*cols reaches or exceeds the configured maximum
page count (equivalently: is not strictly below it, with a falsy maximum
never stopping on the page count); they stop growing once the grown scale
would pass the hard ceiling `DEFAULT_SCALE`, accepting the over-budget
page count, and for every input the selection terminates with a value
(never an error): every returned scale is the start scale times a power of
the growth factor, each growth step was taken with the page count at or
over budget and the grown scale within the ceiling, and the final state is
under budget or at the ceiling. -/
theorem claim_C1_scale_growth (width height uw uh ov ovW ovH s0 : ℚ)
    (maxPages : ℕ) (hs0 : 0 < s0) (hov : ov < uw) :
    ((∃ k, atlas_scale_select width height uw uh ovW ovH =
        ATLAS_START_SCALE * atlasGrowthFactor ^ k ∧
      ∀ j < k,
        MAX_ATLAS_MAPPAGES ≤ atlas_page_count width height uw uh ovW ovH
            (ATLAS_START_SCALE * atlasGrowthFactor ^ j) ∧
          ATLAS_START_SCALE * atlasGrowthFactor ^ (j + 1) ≤ DEFAULT_SCALE) ∧
      (atlas_page_count width height uw uh ovW ovH
          (atlas_scale_select width height uw uh ovW ovH) < MAX_ATLAS_MAPPAGES ∨
        DEFAULT_SCALE < atlas_scale_select width height uw uh ovW ovH *
          atlasGrowthFactor)) ∧
    ((∃ k, multi_page_scale_select width height uw uh ov maxPages s0 =
        s0 * multiGrowthFactor ^ k ∧
      ∀ j < k,
        ¬ (maxPages ≠ 0 ∧ multi_page_count width height uw uh ov
            (s0 * multiGrowthFactor ^ j) < maxPages) ∧
          s0 * multiGrowthFactor ^ (j + 1) ≤ DEFAULT_SCALE) ∧
      ((maxPages ≠ 0 ∧ multi_page_count width height uw uh ov
          (multi_page_scale_select width height uw uh ov maxPages s0) < maxPages) ∨
        DEFAULT_SCALE < multi_page_scale_select width height uw uh ov maxPages s0 *
          multiGrowthFactor)) := by
  constructor
  · constructor
    · obtain ⟨k, _, heq, hcond⟩ := scaleLoop_growth_trace
        (atlas_page_count width height uw uh ovW ovH) MAX_ATLAS_MAPPAGES
        DEFAULT_SCALE atlasGrowthFactor
        (scaleFuel DEFAULT_SCALE ATLAS_START_SCALE atlasGrowthFactor)
        ATLAS_START_SCALE
      refine ⟨k, heq, ?_⟩
      intro j hj
      obtain ⟨hc1, hc2⟩ := hcond j hj
      refine ⟨?_, hc2⟩
      by_contra hcon
      push_neg at hcon
      exact hc1 ⟨by unfold MAX_ATLAS_MAPPAGES; omega, hcon⟩
    · have hpost := scaleLoop_post
        (atlas_page_count width height uw uh ovW ovH) MAX_ATLAS_MAPPAGES
        DEFAULT_SCALE atlasGrowthFactor
        (scaleFuel DEFAULT_SCALE ATLAS_START_SCALE atlasGrowthFactor)
        ATLAS_START_SCALE
        (scaleFuel_spec DEFAULT_SCALE ATLAS_START_SCALE atlasGrowthFactor
          (by norm_num [ATLAS_START_SCALE, DEFAULT_ATLAS_SCALE])
          (by norm_num [atlasGrowthFactor]))
      rcases hpost with ⟨_, hlt⟩ | hhit
      · exact Or.inl hlt
      · exact Or.inr hhit
  · constructor
    · obtain ⟨k, _, heq, hcond⟩ := scaleLoop_growth_trace
        (multi_page_count width height uw uh ov) maxPages
        DEFAULT_SCALE multiGrowthFactor
        (scaleFuel DEFAULT_SCALE s0 multiGrowthFactor) s0
      exact ⟨k, heq, hcond⟩
    · exact scaleLoop_post (multi_page_count width height uw uh ov) maxPages
        DEFAULT_SCALE multiGrowthFactor
        (scaleFuel DEFAULT_SCALE s0 multiGrowthFactor) s0
        (scaleFuel_spec DEFAULT_SCALE s0 multiGrowthFactor hs0
          (by norm_num [multiGrowthFactor]))

/-- C1 witness: a concrete instantiation of the amended loop law. -/
theorem claim_C1_witness :
    (0 : ℚ) < 560000 ∧ (1 : ℚ) < 2 ∧
      ((∃ k, atlas_scale_select 1778 (3556 / 3) 2 2 1 1 =
          ATLAS_START_SCALE * atlasGrowthFactor ^ k ∧
        ∀ j < k,
          MAX_ATLAS_MAPPAGES ≤ atlas_page_count 1778 (3556 / 3) 2 2 1 1
              (ATLAS_START_SCALE * atlasGrowthFactor ^ j) ∧
            ATLAS_START_SCALE * atlasGrowthFactor ^ (j + 1) ≤ DEFAULT_SCALE) ∧
        (atlas_page_count 1778 (3556 / 3) 2 2 1 1
            (atlas_scale_select 1778 (3556 / 3) 2 2 1 1) < MAX_ATLAS_MAPPAGES ∨
          DEFAULT_SCALE < atlas_scale_select 1778 (3556 / 3) 2 2 1 1 *
            atlasGrowthFactor)) ∧
      ((∃ k, multi_page_scale_select 1778 (3556 / 3) 2 2 1 10 560000 =
          560000 * multiGrowthFactor ^ k ∧
        ∀ j < k,
          ¬ ((10 : ℕ) ≠ 0 ∧ multi_page_count 1778 (3556 / 3) 2 2 1
              (560000 * multiGrowthFactor ^ j) < 10) ∧
            560000 * multiGrowthFactor ^ (j + 1) ≤ DEFAULT_SCALE) ∧
        (((10 : ℕ) ≠ 0 ∧ multi_page_count 1778 (3556 / 3) 2 2 1
            (multi_page_scale_select 1778 (3556 / 3) 2 2 1 10 560000) < 10) ∨
          DEFAULT_SCALE < multi_page_scale_select 1778 (3556 / 3) 2 2 1 10 560000 *
            multiGrowthFactor)) :=
  ⟨by norm_num, by norm_num,
    claim_C1_scale_growth 1778 (3556 / 3) 2 2 1 1 1 560000 10
      (by norm_num) (by norm_num)⟩

/-- C9: the tile-scale selection is monotone in the page-count budget for
both variants, and when the returned scale grown once more would not pass
the ceiling, the returned page count is under the budget. -/
theorem claim_C9_budget_monotonic (width height uw uh ov ovW ovH s0 : ℚ)
    (P1 P2 maxP : ℕ) (hs0 : 0 < s0) (hP : P1 ≤ P2) :
    multi_page_scale_select width height uw uh ov P2 s0 ≤
        multi_page_scale_select width height uw uh ov P1 s0 ∧
      tile_scale_select (atlas_page_count width height uw uh ovW ovH) P2
          DEFAULT_SCALE atlasGrowthFactor s0 ≤
        tile_scale_select (atlas_page_count width height uw uh ovW ovH) P1
          DEFAULT_SCALE atlasGrowthFactor s0 ∧
      (¬ DEFAULT_SCALE < multi_page_scale_select width height uw uh ov maxP s0 *
          multiGrowthFactor →
        multi_page_count width height uw uh ov
          (multi_page_scale_select width height uw uh ov maxP s0) ≤ maxP) ∧
      (¬ DEFAULT_SCALE < tile_scale_select (atlas_page_count width height uw uh ovW ovH)
            maxP DEFAULT_SCALE atlasGrowthFactor s0 * atlasGrowthFactor →
        atlas_page_count width height uw uh ovW ovH
          (tile_scale_select (atlas_page_count width height uw uh ovW ovH) maxP
            DEFAULT_SCALE atlasGrowthFactor s0) ≤ maxP) := by
  refine ⟨?_, ?_, ?_, ?_⟩
  · exact scaleLoop_budget_mono (multi_page_count width height uw uh ov)
      DEFAULT_SCALE multiGrowthFactor (by norm_num [multiGrowthFactor]) P1 P2 hP
      (scaleFuel DEFAULT_SCALE s0 multiGrowthFactor) s0 hs0
  · exact scaleLoop_budget_mono (atlas_page_count width height uw uh ovW ovH)
      DEFAULT_SCALE atlasGrowthFactor (by norm_num [atlasGrowthFactor]) P1 P2 hP
      (scaleFuel DEFAULT_SCALE s0 atlasGrowthFactor) s0 hs0
  · intro hnot
    have hpost := scaleLoop_post (multi_page_count width height uw uh ov) maxP
      DEFAULT_SCALE multiGrowthFactor (scaleFuel DEFAULT_SCALE s0 multiGrowthFactor)
      s0 (scaleFuel_spec DEFAULT_SCALE s0 multiGrowthFactor hs0
        (by norm_num [multiGrowthFactor]))
    rcases hpost with ⟨_, hlt⟩ | hhit
    · exact le_of_lt hlt
    · exact absurd hhit hnot
  · intro hnot
    have hpost := scaleLoop_post (atlas_page_count width height uw uh ovW ovH) maxP
      DEFAULT_SCALE atlasGrowthFactor (scaleFuel DEFAULT_SCALE s0 atlasGrowthFactor)
      s0 (scaleFuel_spec DEFAULT_SCALE s0 atlasGrowthFactor hs0
        (by norm_num [atlasGrowthFactor]))
    rcases hpost with ⟨_, hlt⟩ | hhit
    · exact le_of_lt hlt
    · exact absurd hhit hnot

/-- C9 witness: concrete budgets 5 and 10 on a concrete area. -/
theorem claim_C9_witness :
    multi_page_scale_select 1778 (3556 / 3) 2 2 1 10 560000 ≤
        multi_page_scale_select 1778 (3556 / 3) 2 2 1 5 560000 ∧
      tile_scale_select (atlas_page_count 1778 (3556 / 3) 2 2 1 1) 10
          DEFAULT_SCALE atlasGrowthFactor 560000 ≤
        tile_scale_select (atlas_page_count 1778 (3556 / 3) 2 2 1 1) 5
          DEFAULT_SCALE atlasGrowthFactor 560000 ∧
      (¬ DEFAULT_SCALE < multi_page_scale_select 1778 (3556 / 3) 2 2 1 7 560000 *
          multiGrowthFactor →
        multi_page_count 1778 (3556 / 3) 2 2 1
          (multi_page_scale_select 1778 (3556 / 3) 2 2 1 7 560000) ≤ 7) ∧
      (¬ DEFAULT_SCALE < tile_scale_select (atlas_page_count 1778 (3556 / 3) 2 2 1 1) 7
            DEFAULT_SCALE atlasGrowthFactor 560000 * atlasGrowthFactor →
        atlas_page_count 1778 (3556 / 3) 2 2 1 1
          (tile_scale_select (atlas_page_count 1778 (3556 / 3) 2 2 1 1) 7
            DEFAULT_SCALE atlasGrowthFactor 560000) ≤ 7) :=
  claim_C9_budget_monotonic 1778 (3556 / 3) 2 2 1 1 1 560000 5 10 7
    (by norm_num) (by norm_num)

/-! ## Page grid building

Embeds the per-page bounding-box loops of
`layoutlib/multi_page_renderer.py` (lines 221-259) and
`layoutlib/atlas_renderer.py` (lines 287-349): iterate `j` from
`nb_pages_height - 1` down to `0` (row index `col = nb_pages_height - 1 -
j`), then `i` from `0` to `nb_pages_width - 1`; compute the page's outer
and inner rectangles in Mercator meters, test the inner rectangle against
the must-intersect set, and either number the page and emit its boxes or
record `None` in the disposition table.  The geometric intersection tests
(shapely) are oracles of the embedding. -/

structure MercBox where
  x0 : ℚ
  y0 : ℚ
  x1 : ℚ
  y1 : ℚ
deriving DecidableEq, Repr

def boxArea (b : MercBox) : ℚ := (b.x1 - b.x0) * (b.y1 - b.y0)

/-- The `show_page` test (multi-page lines 244-251, atlas lines 330-337):
with track linestrings present, any intersecting track shows the page;
otherwise non-disjointness with the area polygon does. -/
def must_intersect_test {τ : Type} (tracks : List τ)
    (trackIntersects : τ → MercBox → Bool) (areaDisjoint : MercBox → Bool)
    (box : MercBox) : Bool :=
  if 0 < tracks.length then tracks.any (fun t => trackIntersects t box)
  else ! areaDisjoint box

/-- One traversed grid cell: its disposition slot (page number or absent),
its outer box and its tested inner box. -/
structure CellOut where
  slot : Option ℕ
  outer : MercBox
  inner : MercBox
deriving DecidableEq, Repr

/-- One row of the traversal, generic in a row state `σ` (the atlas variant
threads the count of already-visible pages of the row and the previous
column's visibility through the rectangle computation; the multi-page
variant needs no state). -/
def runRow {σ : Type} (test : MercBox → Bool) (rectOf : σ → ℕ → MercBox × MercBox)
    (upd : σ → Bool → σ) : List ℕ → σ → ℕ → List CellOut × ℕ
  | [], _, n => ([], n)
  | i :: is, st, n =>
      let r := rectOf st i
      let v := test r.2
      let rest := runRow test rectOf upd is (upd st v) (if v then n + 1 else n)
      (⟨if v then some n else none, r.1, r.2⟩ :: rest.1, rest.2)

/-- The full traversal: rows are listed in the order the loop visits them,
which is row index `0` (`j = nbH - 1`) first. -/
def runGrid {σ : Type} (nbW : ℕ) (test : MercBox → Bool)
    (rectOf : ℕ → σ → ℕ → MercBox × MercBox) (upd : σ → Bool → σ)
    (rowInit : ℕ → σ) : List ℕ → ℕ → List (List CellOut) × ℕ
  | [], n => ([], n)
  | j :: js, n =>
      let row := runRow test (rectOf j) upd (List.range nbW) (rowInit n) n
      let rest := runGrid nbW test rectOf upd rowInit js row.2
      (row.1 :: rest.1, rest.2)

/-- Parameters of the multi-page grid, all in Mercator meters (lines
185-188). -/
structure MPGridParams where
  offX : ℚ
  offY : ℚ
  usableW : ℚ
  usableH : ℚ
  overlap : ℚ
  grayed : ℚ
deriving DecidableEq, Repr

/-- Outer page rectangle, multi-page (lines 232-236). -/
def mpOuterBox (p : MPGridParams) (i j : ℕ) : MercBox :=
  let curX : ℚ := p.offX + i * (p.usableW - p.overlap)
  let curY : ℚ := p.offY + j * (p.usableH - p.overlap)
  ⟨curX, curY, curX + p.usableW, curY + p.usableH⟩

/-- Inner (drawable) page rectangle, multi-page (lines 238-241). -/
def mpInnerBox (p : MPGridParams) (i j : ℕ) : MercBox :=
  let curX : ℚ := p.offX + i * (p.usableW - p.overlap)
  let curY : ℚ := p.offY + j * (p.usableH - p.overlap)
  ⟨curX + p.grayed, curY + p.grayed,
    curX + p.usableW - p.grayed, curY + p.usableH - p.grayed⟩

def multi_page_grid (p : MPGridParams) (nbW nbH : ℕ) (test : MercBox → Bool) :
    List (List CellOut) × ℕ :=
  runGrid nbW test (fun j _ i => (mpOuterBox p i j, mpInnerBox p i j))
    (fun _ _ => ()) (fun _ => ()) ((List.range nbH).reverse) 0

/-- Parameters of the atlas grid, all in Mercator meters (lines 245-250),
plus the column count used by the right-edge test of line 320. -/
structure AtlasGridParams where
  offX : ℚ
  offY : ℚ
  usableW : ℚ
  usableH : ℚ
  overlapW : ℚ
  overlapH : ℚ
  grayed : ℚ
  nbW : ℕ
deriving DecidableEq, Repr

/-- Atlas per-row state: number of pages already accepted in this row
(`len(pages_in_row)`), whether the previous column was accepted (`i-1 in
indices_in_row`), and the binding parity fixed at row start
(`first_map_row_rightside`, line 302). -/
structure AtlasRowState where
  cnt : ℕ
  prevVis : Bool
  firstRight : Bool
deriving DecidableEq, Repr

/-- Outer and inner rectangles of one atlas cell (lines 303-327). -/
def atlasRectOf (p : AtlasGridParams) (j : ℕ) (st : AtlasRowState) (i : ℕ) :
    MercBox × MercBox :=
  let halfIdx : ℕ := if st.firstRight then (st.cnt + 1) / 2 else st.cnt / 2
  let curX : ℚ := p.offX + i * p.usableW - p.grayed - halfIdx * p.overlapW
  let curY : ℚ := p.offY + j * (p.usableH - p.overlapH)
  let outer : MercBox := ⟨curX, curY, curX + p.usableW, curY + p.usableH⟩
  let startX : ℚ := curX + (if st.cnt = 0 ∨ st.prevVis = false then p.grayed else 0)
  let endX : ℚ := curX + p.usableW - (if i = p.nbW - 1 then p.grayed else 0)
  let inner : MercBox := ⟨startX, curY + p.grayed, endX, curY + p.usableH - p.grayed⟩
  (outer, inner)

def atlasUpd (st : AtlasRowState) (v : Bool) : AtlasRowState :=
  ⟨if v then st.cnt + 1 else st.cnt, v, st.firstRight⟩

def atlasRowInit (n : ℕ) : AtlasRowState := ⟨0, false, n % 2 = 1⟩

def atlas_grid (p : AtlasGridParams) (nbH : ℕ) (test : MercBox → Bool) :
    List (List CellOut) × ℕ :=
  runGrid p.nbW test (atlasRectOf p) atlasUpd atlasRowInit
    ((List.range nbH).reverse) 0

/-- The emitted page list (`bboxes.append` happens exactly for the cells
whose test passed, in traversal order). -/
def emittedBoxes (grid : List (List CellOut)) : List (MercBox × MercBox) :=
  (grid.flatten.filter (fun c => c.slot.isSome)).map (fun c => (c.outer, c.inner))

theorem runRow_cons {σ : Type} (test : MercBox → Bool)
    (rectOf : σ → ℕ → MercBox × MercBox) (upd : σ → Bool → σ)
    (i : ℕ) (is : List ℕ) (st : σ) (n : ℕ) :
    runRow test rectOf upd (i :: is) st n =
      (⟨if test (rectOf st i).2 then some n else none,
          (rectOf st i).1, (rectOf st i).2⟩ ::
        (runRow test rectOf upd is (upd st (test (rectOf st i).2))
          (if test (rectOf st i).2 then n + 1 else n)).1,
        (runRow test rectOf upd is (upd st (test (rectOf st i).2))
          (if test (rectOf st i).2 then n + 1 else n)).2) := rfl

theorem runRow_length {σ : Type} (test : MercBox → Bool)
    (rectOf : σ → ℕ → MercBox × MercBox) (upd : σ → Bool → σ) :
    ∀ (is : List ℕ) (st : σ) (n : ℕ),
      (runRow test rectOf upd is st n).1.length = is.length := by
  intro is
  induction is with
  | nil => intro st n; rfl
  | cons i is ih =>
      intro st n
      rw [runRow_cons]
      simp [ih]

theorem runRow_slot_iff {σ : Type} (test : MercBox → Bool)
    (rectOf : σ → ℕ → MercBox × MercBox) (upd : σ → Bool → σ) :
    ∀ (is : List ℕ) (st : σ) (n : ℕ),
      ∀ c ∈ (runRow test rectOf upd is st n).1,
        c.slot = none ↔ test c.inner = false := by
  intro is
  induction is with
  | nil =>
      intro st n c hc
      exact absurd hc (List.not_mem_nil c)
  | cons i is ih =>
      intro st n c hc
      rw [runRow_cons] at hc
      rcases List.mem_cons.mp hc with h | h
      · subst h
        by_cases hv : test (rectOf st i).2
        · simp [hv]
        · simp [hv, Bool.eq_false_iff]
      · exact ih _ _ c h

theorem runRow_count_ge {σ : Type} (test : MercBox → Bool)
    (rectOf : σ → ℕ → MercBox × MercBox) (upd : σ → Bool → σ) :
    ∀ (is : List ℕ) (st : σ) (n : ℕ), n ≤ (runRow test rectOf upd is st n).2 := by
  intro is
  induction is with
  | nil => intro st n; exact le_rfl
  | cons i is ih =>
      intro st n
      rw [runRow_cons]
      by_cases hv : test (rectOf st i).2
      · simp only [hv, if_true]
        have := ih (upd st true) (n + 1)
        simp only [hv] at this ⊢
        omega
      · simp only [hv, if_false]
        have := ih (upd st false) n
        simp only [Bool.eq_false_iff] at hv
        simpa using ih _ n

theorem runRow_numbering {σ : Type} (test : MercBox → Bool)
    (rectOf : σ → ℕ → MercBox × MercBox) (upd : σ → Bool → σ) :
    ∀ (is : List ℕ) (st : σ) (n : ℕ),
      (runRow test rectOf upd is st n).1.filterMap (fun c => c.slot) =
        List.range' n ((runRow test rectOf upd is st n).2 - n) := by
  intro is
  induction is with
  | nil => intro st n; simp [runRow]
  | cons i is ih =>
      intro st n
      rw [runRow_cons]
      by_cases hv : test (rectOf st i).2
      · have hge := runRow_count_ge test rectOf upd is (upd st (test (rectOf st i).2))
          (if test (rectOf st i).2 then n + 1 else n)
        simp only [hv, if_true] at hge ⊢
        rw [List.filterMap_cons]
        simp only [Option.isSome]
        have hrw : (runRow test rectOf upd is (upd st true) (n + 1)).2 - n =
            ((runRow test rectOf upd is (upd st true) (n + 1)).2 - (n + 1)) + 1 := by
          omega
        rw [hrw]
        rw [List.range'_succ]
        simp [ih]
      · simp only [hv, if_false]
        rw [List.filterMap_cons]
        simp [ih]

theorem runGrid_cons {σ : Type} (nbW : ℕ) (test : MercBox → Bool)
    (rectOf : ℕ → σ → ℕ → MercBox × MercBox) (upd : σ → Bool → σ)
    (rowInit : ℕ → σ) (j : ℕ) (js : List ℕ) (n : ℕ) :
    runGrid nbW test rectOf upd rowInit (j :: js) n =
      ((runRow test (rectOf j) upd (List.range nbW) (rowInit n) n).1 ::
        (runGrid nbW test rectOf upd rowInit js
          (runRow test (rectOf j) upd (List.range nbW) (rowInit n) n).2).1,
        (runGrid nbW test rectOf upd rowInit js
          (runRow test (rectOf j) upd (List.range nbW) (rowInit n) n).2).2) := rfl

theorem runGrid_shape {σ : Type} (nbW : ℕ) (test : MercBox → Bool)
    (rectOf : ℕ → σ → ℕ → MercBox × MercBox) (upd : σ → Bool → σ)
    (rowInit : ℕ → σ) :
    ∀ (js : List ℕ) (n : ℕ),
      (runGrid nbW test rectOf upd rowInit js n).1.length = js.length ∧
        ∀ row ∈ (runGrid nbW test rectOf upd rowInit js n).1, row.length = nbW := by
  intro js
  induction js with
  | nil =>
      intro n
      exact ⟨rfl, fun row hrow => absurd hrow (List.not_mem_nil row)⟩
  | cons j js ih =>
      intro n
      rw [runGrid_cons]
      obtain ⟨ihlen, ihrow⟩ := ih (runRow test (rectOf j) upd (List.range nbW)
        (rowInit n) n).2
      refine ⟨by simp [ihlen], ?_⟩
      intro row hrow
      rcases List.mem_cons.mp hrow with h | h
      · subst h
        rw [runRow_length]
        exact List.length_range nbW
      · exact ihrow row h

theorem runGrid_slot_iff {σ : Type} (nbW : ℕ) (test : MercBox → Bool)
    (rectOf : ℕ → σ → ℕ → MercBox × MercBox) (upd : σ → Bool → σ)
    (rowInit : ℕ → σ) :
    ∀ (js : List ℕ) (n : ℕ),
      ∀ row ∈ (runGrid nbW test rectOf upd rowInit js n).1, ∀ c ∈ row,
        c.slot = none ↔ test c.inner = false := by
  intro js
  induction js with
  | nil =>
      intro n row hrow
      exact absurd hrow (List.not_mem_nil row)
  | cons j js ih =>
      intro n row hrow
      rw [runGrid_cons] at hrow
      rcases List.mem_cons.mp hrow with h | h
      · subst h
        exact runRow_slot_iff test (rectOf j) upd (List.range nbW) (rowInit n) n
      · exact ih _ row h

theorem runGrid_count_ge {σ : Type} (nbW : ℕ) (test : MercBox → Bool)
    (rectOf : ℕ → σ → ℕ → MercBox × MercBox) (upd : σ → Bool → σ)
    (rowInit : ℕ → σ) :
    ∀ (js : List ℕ) (n : ℕ), n ≤ (runGrid nbW test rectOf upd rowInit js n).2 := by
  intro js
  induction js with
  | nil => intro n; exact le_rfl
  | cons j js ih =>
      intro n
      rw [runGrid_cons]
      calc n ≤ (runRow test (rectOf j) upd (List.range nbW) (rowInit n) n).2 :=
            runRow_count_ge test (rectOf j) upd (List.range nbW) (rowInit n) n
        _ ≤ _ := ih _

/-- Visible pages are numbered consecutively in traversal order: the
disposition slots that are present, read row-major, are exactly
`n, n+1, ...` up to the final counter. -/
theorem runGrid_numbering {σ : Type} (nbW : ℕ) (test : MercBox → Bool)
    (rectOf : ℕ → σ → ℕ → MercBox × MercBox) (upd : σ → Bool → σ)
    (rowInit : ℕ → σ) :
    ∀ (js : List ℕ) (n : ℕ),
      (runGrid nbW test rectOf upd rowInit js n).1.flatten.filterMap
          (fun c => c.slot) =
        List.range' n ((runGrid nbW test rectOf upd rowInit js n).2 - n) := by
  intro js
  induction js with
  | nil =>
      intro n
      simp [runGrid]
  | cons j js ih =>
      intro n
      rw [runGrid_cons]
      simp only [List.flatten_cons, List.filterMap_append]
      rw [runRow_numbering, ih]
      set m := (runRow test (rectOf j) upd (List.range nbW) (rowInit n) n).2 with hm
      have h1 : n ≤ m := runRow_count_ge test (rectOf j) upd (List.range nbW)
        (rowInit n) n
      have h2 : m ≤ (runGrid nbW test rectOf upd rowInit js m).2 :=
        runGrid_count_ge nbW test rectOf upd rowInit js m
      have hrw : n + (m - n) = m := by omega
      calc List.range' n (m - n) ++
            List.range' m ((runGrid nbW test rectOf upd rowInit js m).2 - m) =
          List.range' n (m - n) ++
            List.range' (n + 1 * (m - n))
              ((runGrid nbW test rectOf upd rowInit js m).2 - m) := by
            rw [one_mul, hrw]
        _ = List.range' n (((runGrid nbW test rectOf upd rowInit js m).2 - m) + (m - n)) :=
            List.range'_append n (m - n) _ 1
        _ = List.range' n ((runGrid nbW test rectOf upd rowInit js m).2 - n) := by
            congr 1
            omega

theorem filterMap_slot_length (l : List CellOut) :
    (l.filterMap (fun c => c.slot)).length =
      (l.filter (fun c => c.slot.isSome)).length := by
  induction l with
  | nil => rfl
  | cons c l ih =>
      rw [List.filterMap_cons, List.filter_cons]
      cases hs : c.slot with
      | none => simpa [hs] using ih
      | some m => simpa [hs] using ih

theorem runRow_unit_get (test : MercBox → Bool) (rect : ℕ → MercBox × MercBox) :
    ∀ (is : List ℕ) (n k x : ℕ), is.get? k = some x →
      ∃ s, (runRow test (fun _ i => rect i) (fun _ _ => ()) is () n).1.get? k =
        some ⟨s, (rect x).1, (rect x).2⟩ := by
  intro is
  induction is with
  | nil =>
      intro n k x hx
      simp at hx
  | cons i is ih =>
      intro n k x hx
      rw [runRow_cons]
      cases k with
      | zero =>
          simp only [List.get?] at hx
          injection hx with hxi
          subst hxi
          exact ⟨if test (rect i).2 then some n else none, rfl⟩
      | succ m =>
          simp only [List.get?] at hx
          obtain ⟨s, hs⟩ := ih (if test (rect i).2 then n + 1 else n) m x hx
          exact ⟨s, by simpa using hs⟩

theorem runGrid_row {σ : Type} (nbW : ℕ) (test : MercBox → Bool)
    (rectOf : ℕ → σ → ℕ → MercBox × MercBox) (upd : σ → Bool → σ)
    (rowInit : ℕ → σ) :
    ∀ (js : List ℕ) (n r j : ℕ), js.get? r = some j →
      ∃ m, (runGrid nbW test rectOf upd rowInit js n).1.get? r =
        some (runRow test (rectOf j) upd (List.range nbW) (rowInit m) m).1 := by
  intro js
  induction js with
  | nil =>
      intro n r j hj
      simp at hj
  | cons j0 js ih =>
      intro n r j hj
      rw [runGrid_cons]
      cases r with
      | zero =>
          simp only [List.get?] at hj
          cases hj
          exact ⟨n, rfl⟩
      | succ m =>
          simp only [List.get?] at hj
          obtain ⟨m2, hm2⟩ := ih
            (runRow test (rectOf j0) upd (List.range nbW) (rowInit n) n).2 m j hj
          exact ⟨m2, by simpa using hm2⟩

/-- The multi-page cell at disposition position (row, column) carries
exactly the closed-form outer and inner rectangles of that grid cell. -/
theorem multi_page_grid_cell (p : MPGridParams) (nbW nbH : ℕ)
    (test : MercBox → Bool) :
    ∀ r < nbH, ∀ i < nbW, ∃ s,
      ((multi_page_grid p nbW nbH test).1.get? r).bind (fun row => row.get? i) =
        some ⟨s, mpOuterBox p i (nbH - 1 - r), mpInnerBox p i (nbH - 1 - r)⟩ := by
  intro r hr i hi
  have hjs : ((List.range nbH).reverse).get? r = some (nbH - 1 - r) := by
    rw [List.get?_eq_getElem?,
      List.getElem?_reverse (by simpa using hr), List.length_range,
      ← List.get?_eq_getElem?]
    exact List.get?_range (by omega)
  obtain ⟨m, hm⟩ := runGrid_row nbW test
    (fun j _ i => (mpOuterBox p i j, mpInnerBox p i j)) (fun _ _ => ())
    (fun _ => ()) ((List.range nbH).reverse) 0 r (nbH - 1 - r) hjs
  obtain ⟨s, hs⟩ := runRow_unit_get test
    (fun i => (mpOuterBox p i (nbH - 1 - r), mpInnerBox p i (nbH - 1 - r)))
    (List.range nbW) m i i (List.get?_range hi)
  refine ⟨s, ?_⟩
  unfold multi_page_grid
  rw [hm]
  simpa using hs

/-- C6: in both the multi-page and the atlas page-grid builders, a page
whose inner rectangle fails the must-intersect test gets an absent slot at
its (row, column) position of the disposition table (every traversed cell
keeps a slot, so the table stays `nbH` rows of `nbW` columns), it receives
no page number and is not emitted; the visible pages are numbered
`0, 1, 2, ...` in traversal order, so with the renderer's first-page offset
they are numbered consecutively from that offset (`_first_map_page_number`,
4 for the multi-page renderer, 1 for the atlas renderer). -/
theorem claim_C6_invisible_pages (p : MPGridParams) (ap : AtlasGridParams)
    (nbW nbH anbH firstPage : ℕ) (test testA : MercBox → Bool) :
    ((multi_page_grid p nbW nbH test).1.length = nbH ∧
      (∀ row ∈ (multi_page_grid p nbW nbH test).1, row.length = nbW) ∧
      (∀ row ∈ (multi_page_grid p nbW nbH test).1, ∀ c ∈ row,
        c.slot = none ↔ test c.inner = false) ∧
      (multi_page_grid p nbW nbH test).1.flatten.filterMap (fun c => c.slot) =
        List.range (multi_page_grid p nbW nbH test).2 ∧
      ((multi_page_grid p nbW nbH test).1.flatten.filterMap
          (fun c => c.slot)).map (fun n => firstPage + n) =
        List.range' firstPage (multi_page_grid p nbW nbH test).2 ∧
      (emittedBoxes (multi_page_grid p nbW nbH test).1).length =
        (multi_page_grid p nbW nbH test).2 ∧
      ∀ r < nbH, ∀ i < nbW, ∃ s,
        ((multi_page_grid p nbW nbH test).1.get? r).bind (fun row => row.get? i) =
          some ⟨s, mpOuterBox p i (nbH - 1 - r), mpInnerBox p i (nbH - 1 - r)⟩) ∧
    ((atlas_grid ap anbH testA).1.length = anbH ∧
      (∀ row ∈ (atlas_grid ap anbH testA).1, row.length = ap.nbW) ∧
      (∀ row ∈ (atlas_grid ap anbH testA).1, ∀ c ∈ row,
        c.slot = none ↔ testA c.inner = false) ∧
      (atlas_grid ap anbH testA).1.flatten.filterMap (fun c => c.slot) =
        List.range (atlas_grid ap anbH testA).2 ∧
      (emittedBoxes (atlas_grid ap anbH testA).1).length =
        (atlas_grid ap anbH testA).2) := by
  have hnum1 := runGrid_numbering nbW test
    (fun j _ i => (mpOuterBox p i j, mpInnerBox p i j)) (fun _ _ => ())
    (fun _ => ()) ((List.range nbH).reverse) 0
  have hnum2 := runGrid_numbering ap.nbW testA (atlasRectOf ap) atlasUpd
    atlasRowInit ((List.range anbH).reverse) 0
  have hrange1 : (multi_page_grid p nbW nbH test).1.flatten.filterMap
      (fun c => c.slot) = List.range (multi_page_grid p nbW nbH test).2 := by
    unfold multi_page_grid
    rw [hnum1, Nat.sub_zero, ← List.range_eq_range']
  have hrange2 : (atlas_grid ap anbH testA).1.flatten.filterMap
      (fun c => c.slot) = List.range (atlas_grid ap anbH testA).2 := by
    unfold atlas_grid
    rw [hnum2, Nat.sub_zero, ← List.range_eq_range']
  have hemit1 : (emittedBoxes (multi_page_grid p nbW nbH test).1).length =
      (multi_page_grid p nbW nbH test).2 := by
    unfold emittedBoxes
    rw [List.length_map, ← filterMap_slot_length, hrange1, List.length_range]
  have hemit2 : (emittedBoxes (atlas_grid ap anbH testA).1).length =
      (atlas_grid ap anbH testA).2 := by
    unfold emittedBoxes
    rw [List.length_map, ← filterMap_slot_length, hrange2, List.length_range]
  refine ⟨⟨?_, ?_, ?_, hrange1, ?_, hemit1, multi_page_grid_cell p nbW nbH test⟩,
    ?_, ?_, ?_, hrange2, hemit2⟩
  · have := (runGrid_shape nbW test
      (fun j _ i => (mpOuterBox p i j, mpInnerBox p i j)) (fun _ _ => ())
      (fun _ => ()) ((List.range nbH).reverse) 0).1
    simpa [multi_page_grid] using this
  · exact (runGrid_shape nbW test
      (fun j _ i => (mpOuterBox p i j, mpInnerBox p i j)) (fun _ _ => ())
      (fun _ => ()) ((List.range nbH).reverse) 0).2
  · exact runGrid_slot_iff nbW test
      (fun j _ i => (mpOuterBox p i j, mpInnerBox p i j)) (fun _ _ => ())
      (fun _ => ()) ((List.range nbH).reverse) 0
  · rw [hrange1, List.range'_eq_map_range]
  · have := (runGrid_shape ap.nbW testA (atlasRectOf ap) atlasUpd atlasRowInit
      ((List.range anbH).reverse) 0).1
    simpa [atlas_grid] using this
  · exact (runGrid_shape ap.nbW testA (atlasRectOf ap) atlasUpd atlasRowInit
      ((List.range anbH).reverse) 0).2
  · exact runGrid_slot_iff ap.nbW testA (atlasRectOf ap) atlasUpd atlasRowInit
      ((List.range anbH).reverse) 0

/-- C6 witness: a 2 x 2 multi-page grid whose test accepts boxes with
nonnegative right edge, and a 2 x 1 atlas grid accepting everything. -/
theorem claim_C6_witness :
    ∃ s, ((multi_page_grid ⟨0, 0, 10, 8, 2, 1⟩ 2 2
        (fun b => decide (0 ≤ b.x1))).1.get? 0).bind (fun row => row.get? 1) =
      some ⟨s, mpOuterBox ⟨0, 0, 10, 8, 2, 1⟩ 1 1, mpInnerBox ⟨0, 0, 10, 8, 2, 1⟩ 1 1⟩ :=
  ((claim_C6_invisible_pages ⟨0, 0, 10, 8, 2, 1⟩ ⟨0, 0, 100, 50, 6, 16, 5, 2⟩
      2 2 1 4 (fun b => decide (0 ≤ b.x1)) (fun _ => true)).1.2.2.2.2.2.2)
    0 (by norm_num) 1 (by norm_num)

/-- Total paper length after extension, multi-page renderer lines 157-161:
`usable + (usable - overlap) * (nb_pages - 1)`. -/
def mp_total_after_extension (usable overlap : ℚ) (nb : ℕ) : ℚ :=
  usable + (usable - overlap) * ((nb : ℚ) - 1)

/-- Total paper width after extension, atlas renderer lines 217-219; the
subtrahend uses `overlap_margin_height_pt` and integer division by two. -/
def atlas_total_width_after_extension (uw ovH : ℚ) (nbW : ℕ) : ℚ :=
  uw * (nbW : ℚ) - ovH * (((nbW - 1) / 2 : ℕ) : ℚ)

/-- Total paper height after extension, atlas renderer lines 220-221. -/
def atlas_total_height_after_extension (uh ovH : ℚ) (nbH : ℕ) : ℚ :=
  uh + (uh - ovH) * ((nbH : ℚ) - 1)

/-- C8 counterexample: an all-visible 2 x 1 atlas grid.  The two
horizontally adjacent outer rectangles touch at x = 95 with zero overlap,
not the configured 6-unit overlap-width margin, and the first page's x
offset is the grayed margin to the left of the origin, not
`index * (usable - overlap)`. -/
theorem claim_C8_counterexample :
    (atlas_grid ⟨0, 0, 100, 50, 6, 16, 5, 2⟩ 1 (fun _ => true)).1 =
        [[⟨some 0, ⟨-5, 0, 95, 50⟩, ⟨0, 5, 95, 45⟩⟩,
          ⟨some 1, ⟨95, 0, 195, 50⟩, ⟨95, 5, 190, 45⟩⟩]] ∧
      (⟨-5, 0, 95, 50⟩ : MercBox).x1 - (⟨95, 0, 195, 50⟩ : MercBox).x0 = 0 ∧
      (0 : ℚ) ≠ (⟨0, 0, 100, 50, 6, 16, 5, 2⟩ : AtlasGridParams).overlapW ∧
      (⟨-5, 0, 95, 50⟩ : MercBox).x0 - (⟨0, 0, 100, 50, 6, 16, 5, 2⟩ :
        AtlasGridParams).offX ≠ 0 * (100 - 6) := by
  refine ⟨by decide, by norm_num, by decide, by decide⟩

/-- C8 (amended): in the multi-page variant every outer rectangle is offset
by `index * (usable - overlap)` per axis and horizontally or vertically
adjacent outer rectangles overlap by exactly the configured overlap margin,
and the summed outer areas cover the padded bounding box.  In the atlas
variant the vertical axis obeys the same law with the overlap-height
margin, the summed outer areas still cover the padded bounding box, but
the horizontal outer offset is `index * usable` shifted left by the grayed
margin and a binding-parity multiple of the overlap width (see the
counterexample), so horizontally adjacent atlas pages overlap alternately
by zero and by the overlap-width margin. -/
theorem claim_C8_overlap_and_area (p : MPGridParams) (ap : AtlasGridParams)
    (nbW nbH anbH : ℕ)
    (hov0 : 0 ≤ p.overlap) (hovW : p.overlap ≤ p.usableW)
    (hovH : p.overlap ≤ p.usableH) (hnbW : 1 ≤ nbW) (hnbH : 1 ≤ nbH)
    (haov0 : 0 ≤ ap.overlapH) (haovH : ap.overlapH ≤ ap.usableH)
    (hauw : 0 ≤ ap.usableW) (hanbH : 1 ≤ anbH) :
    (∀ i j : ℕ, (mpOuterBox p i j).x0 - p.offX = i * (p.usableW - p.overlap) ∧
      (mpOuterBox p i j).y0 - p.offY = j * (p.usableH - p.overlap)) ∧
    (∀ i j : ℕ, (mpOuterBox p i j).x1 - (mpOuterBox p (i + 1) j).x0 = p.overlap ∧
      (mpOuterBox p i j).y1 - (mpOuterBox p i (j + 1)).y0 = p.overlap) ∧
    (∑ i ∈ Finset.range nbW, ∑ j ∈ Finset.range nbH, boxArea (mpOuterBox p i j) ≥
      mp_total_after_extension p.usableW p.overlap nbW *
        mp_total_after_extension p.usableH p.overlap nbH) ∧
    (∀ (j : ℕ) (st : AtlasRowState) (i : ℕ),
      (atlasRectOf ap j st i).1.y0 - ap.offY = j * (ap.usableH - ap.overlapH) ∧
      (atlasRectOf ap j st i).1.y1 - (atlasRectOf ap (j + 1) st i).1.y0 =
        ap.overlapH ∧
      boxArea (atlasRectOf ap j st i).1 = ap.usableW * ap.usableH) ∧
    ((ap.nbW : ℚ) * (anbH : ℚ) * (ap.usableW * ap.usableH) ≥
      atlas_total_width_after_extension ap.usableW ap.overlapH ap.nbW *
        atlas_total_height_after_extension ap.usableH ap.overlapH anbH) := by
  have hcastW : (1 : ℚ) ≤ (nbW : ℚ) := by exact_mod_cast hnbW
  have hcastH : (1 : ℚ) ≤ (nbH : ℚ) := by exact_mod_cast hnbH
  have hcastAH : (1 : ℚ) ≤ (anbH : ℚ) := by exact_mod_cast hanbH
  refine ⟨?_, ?_, ?_, ?_, ?_⟩
  · intro i j
    constructor
    · show p.offX + i * (p.usableW - p.overlap) - p.offX = i * (p.usableW - p.overlap)
      ring
    · show p.offY + j * (p.usableH - p.overlap) - p.offY = j * (p.usableH - p.overlap)
      ring
  · intro i j
    constructor
    · show p.offX + i * (p.usableW - p.overlap) + p.usableW -
          (p.offX + (i + 1 : ℕ) * (p.usableW - p.overlap)) = p.overlap
      push_cast
      ring
    · show p.offY + j * (p.usableH - p.overlap) + p.usableH -
          (p.offY + (j + 1 : ℕ) * (p.usableH - p.overlap)) = p.overlap
      push_cast
      ring
  · have harea : ∀ i j : ℕ, boxArea (mpOuterBox p i j) = p.usableW * p.usableH := by
      intro i j
      show (p.offX + i * (p.usableW - p.overlap) + p.usableW -
          (p.offX + i * (p.usableW - p.overlap))) *
        (p.offY + j * (p.usableH - p.overlap) + p.usableH -
          (p.offY + j * (p.usableH - p.overlap))) = p.usableW * p.usableH
      ring
    have hsum : ∑ i ∈ Finset.range nbW, ∑ j ∈ Finset.range nbH,
        boxArea (mpOuterBox p i j) = (nbW : ℚ) * (nbH : ℚ) *
          (p.usableW * p.usableH) := by
      rw [Finset.sum_congr rfl (fun i _ => Finset.sum_congr rfl
        (fun j _ => harea i j))]
      simp [Finset.sum_const, mul_comm, mul_assoc, mul_left_comm]
    rw [hsum]
    unfold mp_total_after_extension
    have huw0 : 0 ≤ p.usableW := le_trans hov0 hovW
    have huh0 : 0 ≤ p.usableH := le_trans hov0 hovH
    have hA : p.usableW + (p.usableW - p.overlap) * ((nbW : ℚ) - 1) ≤
        (nbW : ℚ) * p.usableW := by nlinarith
    have hB : p.usableH + (p.usableH - p.overlap) * ((nbH : ℚ) - 1) ≤
        (nbH : ℚ) * p.usableH := by nlinarith
    have hB0 : 0 ≤ p.usableH + (p.usableH - p.overlap) * ((nbH : ℚ) - 1) := by
      nlinarith
    have hA1 : 0 ≤ (nbW : ℚ) * p.usableW := by positivity
    calc (p.usableW + (p.usableW - p.overlap) * ((nbW : ℚ) - 1)) *
          (p.usableH + (p.usableH - p.overlap) * ((nbH : ℚ) - 1)) ≤
        ((nbW : ℚ) * p.usableW) * ((nbH : ℚ) * p.usableH) :=
          mul_le_mul hA hB hB0 hA1
      _ = (nbW : ℚ) * (nbH : ℚ) * (p.usableW * p.usableH) := by ring
  · intro j st i
    refine ⟨?_, ?_, ?_⟩
    · show ap.offY + j * (ap.usableH - ap.overlapH) - ap.offY =
          j * (ap.usableH - ap.overlapH)
      ring
    · show ap.offY + j * (ap.usableH - ap.overlapH) + ap.usableH -
          (ap.offY + (j + 1 : ℕ) * (ap.usableH - ap.overlapH)) = ap.overlapH
      push_cast
      ring
    · unfold atlasRectOf boxArea
      ring
  · unfold atlas_total_width_after_extension atlas_total_height_after_extension
    have huh0 : 0 ≤ ap.usableH := le_trans haov0 haovH
    have hW : ap.usableW * (ap.nbW : ℚ) -
        ap.overlapH * (((ap.nbW - 1) / 2 : ℕ) : ℚ) ≤ (ap.nbW : ℚ) * ap.usableW := by
      have hh0 : (0 : ℚ) ≤ (((ap.nbW - 1) / 2 : ℕ) : ℚ) := by positivity
      nlinarith
    have hH : ap.usableH + (ap.usableH - ap.overlapH) * ((anbH : ℚ) - 1) ≤
        (anbH : ℚ) * ap.usableH := by nlinarith
    have hH0 : 0 ≤ ap.usableH + (ap.usableH - ap.overlapH) * ((anbH : ℚ) - 1) := by
      nlinarith
    have hW1 : 0 ≤ (ap.nbW : ℚ) * ap.usableW := by positivity
    calc (ap.usableW * (ap.nbW : ℚ) - ap.overlapH * (((ap.nbW - 1) / 2 : ℕ) : ℚ)) *
          (ap.usableH + (ap.usableH - ap.overlapH) * ((anbH : ℚ) - 1)) ≤
        ((ap.nbW : ℚ) * ap.usableW) * ((anbH : ℚ) * ap.usableH) :=
          mul_le_mul hW hH hH0 hW1
      _ = (ap.nbW : ℚ) * (anbH : ℚ) * (ap.usableW * ap.usableH) := by ring

/-- C8 witness: concrete multi-page parameter set, adjacent pages (0,0),
(1,0) and (0,0), (0,1). -/
theorem claim_C8_witness :
    (mpOuterBox ⟨0, 0, 10, 8, 2, 1⟩ 0 0).x1 -
        (mpOuterBox ⟨0, 0, 10, 8, 2, 1⟩ (0 + 1) 0).x0 =
          (⟨0, 0, 10, 8, 2, 1⟩ : MPGridParams).overlap ∧
      (mpOuterBox ⟨0, 0, 10, 8, 2, 1⟩ 0 0).y1 -
        (mpOuterBox ⟨0, 0, 10, 8, 2, 1⟩ 0 (0 + 1)).y0 =
          (⟨0, 0, 10, 8, 2, 1⟩ : MPGridParams).overlap :=
  (claim_C8_overlap_and_area ⟨0, 0, 10, 8, 2, 1⟩ ⟨0, 0, 100, 50, 6, 16, 5, 2⟩
    3 2 1 (by norm_num) (by norm_num) (by norm_num) (by norm_num) (by norm_num)
    (by norm_num) (by norm_num) (by norm_num) (by norm_num)).2.1 0 0

end Ocitysmap
